import Mathlib

/-!
Verification development for the trivy metrics exporters of this repository.

The development shallowly embeds the three Python sources:
  * `Security/trivy/trivy-exporter.py`            (namespace `FileExporter`)
  * `Security/trivy/dashboard/trivy_exporter.py`  (namespace `DashboardExporter`)
  * `Security/trivy/trivy-prometheus-exporter.py` (namespace `PromExporter`)

Decoded JSON documents are modelled by the inductive type `Json`; Python
runtime errors (`AttributeError`, `TypeError`, ...) that the sources raise and
catch are modelled with `Except`.  Prometheus metric families are modelled as
association lists from label tuples to values.  Label values are kept as the
strings prometheus_client produces with `str()`; the `str()` image of list and
dict values is not modelled (no behaviour settled here depends on it), and
Python dictionary keys built from label data are likewise modelled through
their string image, which is exact on string-valued fields.
-/

/-- A decoded JSON document, as produced by Python's `json.load`/`json.loads`.
Numbers are restricted to integers; no settled behaviour depends on floats. -/
inductive Json where
  | jnull
  | jbool (b : Bool)
  | jnum (n : Int)
  | jstr (s : String)
  | jarr (elems : List Json)
  | jobj (fields : List (String × Json))

/-- First-match association list lookup (Python dict access; decoded JSON
objects have unique keys, so first match agrees with dict semantics). -/
def lookupK {κ ν : Type} [DecidableEq κ] : List (κ × ν) → κ → Option ν
  | [], _ => none
  | (k2, v) :: rest, k => if k2 = k then some v else lookupK rest k

/-- Overwrite-or-insert for an association list: the map update performed by
`Gauge.labels(...).set(...)` and by Python dict assignment.  The pair is placed
at the head; all consumed observations (lookup, value sums) are independent of
entry order. -/
def setK {κ ν : Type} [DecidableEq κ] (m : List (κ × ν)) (k : κ) (v : ν) : List (κ × ν) :=
  (k, v) :: m.filter (fun p => decide (p.1 ≠ k))

/-- Sum of the values of a metric family. -/
def sumVals {κ : Type} (m : List (κ × Int)) : Int :=
  (m.map Prod.snd).sum

/-- Keys of an association list. -/
def keysOf {κ ν : Type} (m : List (κ × ν)) : List κ :=
  m.map Prod.fst

/-- Python truthiness of a decoded JSON value. -/
def truthy : Json → Bool
  | .jnull => false
  | .jbool b => b
  | .jnum n => decide (n ≠ 0)
  | .jstr s => decide (s ≠ "")
  | .jarr [] => false
  | .jarr (_ :: _) => true
  | .jobj [] => false
  | .jobj (_ :: _) => true

/-- Python `str()` of a decoded JSON value, as applied by prometheus_client to
label values.  The `repr`-style image of lists and dicts is not modelled; no
settled behaviour depends on it. -/
def pyStr : Json → String
  | .jstr s => s
  | .jnum n => toString n
  | .jbool true => "True"
  | .jbool false => "False"
  | .jnull => "None"
  | .jarr _ => "<list-repr-unmodelled>"
  | .jobj _ => "<dict-repr-unmodelled>"

/-- Python `value.get(key, default)`: succeeds only on dicts
(`AttributeError` otherwise, modelled as `Except.error`). -/
def getD : Json → String → Json → Except Unit Json
  | .jobj fields, k, d => .ok ((lookupK fields k).getD d)
  | _, _, _ => .error ()

/-- Python iteration `for x in value`: lists yield their elements, strings
their characters, dicts their keys; other values raise `TypeError`. -/
def iterList : Json → Except Unit (List Json)
  | .jarr xs => .ok xs
  | .jstr s => .ok (s.data.map (fun c => .jstr (String.mk [c])))
  | .jobj fields => .ok (fields.map (fun p => .jstr p.1))
  | _ => .error ()

/-- Python `a or b`. -/
def pyOr (a b : Json) : Json :=
  if truthy a then a else b

/-- Python slicing `value[:n]`: defined on strings and lists, raises
`TypeError` otherwise. -/
def pySlice : Json → Nat → Except Unit Json
  | .jstr s, n => .ok (.jstr (s.take n))
  | .jarr xs, n => .ok (.jarr (xs.take n))
  | _, _ => .error ()

/-- Python membership `key in value` for a string key: key test on dicts,
element test on lists, substring test on strings; raises `TypeError` on
non-container values. -/
def pyIn (key : String) : Json → Except Unit Bool
  | .jobj fields => .ok (fields.any (fun p => decide (p.1 = key)))
  | .jarr xs => .ok (xs.any (fun j => match j with | .jstr s => decide (s = key) | _ => false))
  | .jstr s => .ok (decide (2 ≤ (s.splitOn key).length))
  | _ => .error ()

/-- Python dict counting update `m[key] = m.get(key, 0) + 1`, preserving dict
insertion order (`trivy-exporter.py` line 200). -/
def bump {κ : Type} [DecidableEq κ] (m : List (κ × Int)) (k : κ) : List (κ × Int) :=
  if m.any (fun p => decide (p.1 = k)) then
    m.map (fun p => if p.1 = k then (p.1, p.2 + 1) else p)
  else
    m ++ [(k, 1)]

namespace FileExporter

/-- One entry of the `vulnerabilities` list built by `parse_trivy_report`
(`trivy-exporter.py` lines 117-125); field values are the raw decoded JSON
values obtained with `.get`. -/
structure Vuln where
  image : Json
  vulnerability_id : Json
  package : Json
  installed_version : Json
  fixed_version : Json
  severity : Json
  title : Json

/-- The dict returned by `parse_trivy_report` (lines 126-130). -/
structure Report where
  image : Json
  scan_time : Json
  vulnerabilities : List Vuln

/-- Body of the inner `for vuln in result.get('Vulnerabilities', []) or []`
loop of `parse_trivy_report` (`trivy-exporter.py` lines 116-125): one
appended vulnerability dict, every field defaulted with `.get`. -/
def parseVulnStep (image_name : Json) (acc2 : List Vuln) (vuln : Json) :
    Except Unit (List Vuln) := do
  let vid ← getD vuln "VulnerabilityID" (.jstr "")
  let pkg ← getD vuln "PkgName" (.jstr "")
  let iv ← getD vuln "InstalledVersion" (.jstr "")
  let fv ← getD vuln "FixedVersion" (.jstr "")
  let sev ← getD vuln "Severity" (.jstr "UNKNOWN")
  let title ← getD vuln "Title" (.jstr "")
  pure (acc2 ++ [⟨image_name, vid, pkg, iv, fv, sev, title⟩])

/-- Body of the outer `for result in data.get('Results', [])` loop (lines
115-125). -/
def parseResultStep (image_name : Json) (acc : List Vuln) (result : Json) :
    Except Unit (List Vuln) := do
  let vulnsJ ← getD result "Vulnerabilities" (.jarr [])
  let vulns ← iterList (pyOr vulnsJ (.jarr []))
  vulns.foldlM (parseVulnStep image_name) acc

/-- Body of `parse_trivy_report` after `json.load` succeeded
(`trivy-exporter.py` lines 111-130).  Any Python exception raised while
walking the document is an `Except.error` here; `parse_trivy_report` catches
it. -/
def parseBody (data : Json) : Except Unit Report := do
  let image_name ← getD data "ArtifactName" (.jstr "unknown")
  let scan_time ← getD data "CreatedAt" (.jstr "")
  let resultsJ ← getD data "Results" (.jarr [])
  let results ← iterList resultsJ
  let vulnerabilities ← results.foldlM (parseResultStep image_name) []
  pure ⟨image_name, scan_time, vulnerabilities⟩

/-- `parse_trivy_report` (`trivy-exporter.py` lines 106-134).  The input is
`none` when opening or JSON-decoding the file raises; any exception inside the
body is caught and turned into `None` (lines 132-134). -/
def parse_trivy_report (input : Option Json) : Option Report :=
  match input with
  | none => none
  | some data =>
    match parseBody data with
    | .ok rep => some rep
    | .error _ => none

/-- Label tuple of `trivy_image_vulnerabilities`: `(image, severity, package)`. -/
structure CountKey where
  image : String
  severity : String
  package : String
deriving DecidableEq

/-- Label tuple of `trivy_vulnerability_info`:
`(vulnerability_id, image, package, severity, installed_version, fixed_version)`. -/
structure InfoKey where
  vulnerability_id : String
  image : String
  package : String
  severity : String
  installed_version : String
  fixed_version : String
deriving DecidableEq

/-- The prometheus registry state exposed by `trivy-exporter.py`: its four
metric families (lines 31-52). -/
structure Registry where
  counts : List (CountKey × Int)
  info : List (InfoKey × Int)
  last_scan : List (String × Int)
  images_scanned : Int
deriving DecidableEq

/-- Registry state at process start: labeled families empty, the plain gauge
at prometheus_client's default value 0. -/
def initRegistry : Registry := ⟨[], [], [], 0⟩

/-- One atomic operation `update_metrics` performs on the shared registry, in
source order.  A concurrent `/metrics` read can occur between any two of
these. -/
inductive RegOp where
  | clearCounts
  | clearInfo
  | setLastScan (image : String) (t : Int)
  | setInfo (k : InfoKey)
  | setCount (k : CountKey) (v : Int)
  | setImagesScanned (v : Int)

/-- Effect of one registry operation. -/
def applyOp (r : Registry) : RegOp → Registry
  | .clearCounts => { r with counts := [] }
  | .clearInfo => { r with info := [] }
  | .setLastScan img t => { r with last_scan := setK r.last_scan img t }
  | .setInfo k => { r with info := setK r.info k 1 }
  | .setCount k v => { r with counts := setK r.counts k v }
  | .setImagesScanned v => { r with images_scanned := v }

/-- Outcome of enumerating the reports directory (`trivy-exporter.py` lines
147-169): the directory is absent, exists but is not a directory, globbing
raises, or yields a list of files.  Each file is `none` when opening/decoding
it raises inside `parse_trivy_report`, otherwise its decoded document. -/
inductive DirState where
  | absent
  | notDir
  | permissionDenied
  | files (fs : List (Option Json))

/-- The per-report counting dict `vuln_counts` (lines 193-200), keyed by
`(image, severity, package)`.  Keys are modelled through their label-string
image. -/
def buildVulnCounts (rep : Report) : List (CountKey × Int) :=
  rep.vulnerabilities.foldl
    (fun m v => bump m ⟨pyStr rep.image, pyStr v.severity, pyStr v.package⟩) []

/-- Registry operations of the timestamp block (lines 183-190): performed only
for truthy `scan_time`, skipped when timestamp parsing raises.  `tsParse`
abstracts `datetime.fromisoformat` composed with the `Z` normalisation;
`none` models the raising case. -/
def tsOps (tsParse : Json → Option Int) (rep : Report) : List RegOp :=
  if truthy rep.scan_time then
    match tsParse rep.scan_time with
    | some t => [.setLastScan (pyStr rep.image) t]
    | none => []
  else []

/-- Registry operation of one `trivy_vulnerability_info` write (lines
205-216): `fixed_version` is truncated to 64 characters when truthy, replaced
by the empty string otherwise; if slicing raises, the write is caught and
skipped. -/
def infoOps (image : Json) (v : Vuln) : List RegOp :=
  let fv : Option String :=
    if truthy v.fixed_version then
      match pySlice v.fixed_version 64 with
      | .ok j => some (pyStr j)
      | .error _ => none
    else some ""
  match fv with
  | some fvs =>
    [.setInfo ⟨pyStr v.vulnerability_id, pyStr image, pyStr v.package,
               pyStr v.severity, pyStr v.installed_version, fvs⟩]
  | none => []

/-- Registry operations for one successfully parsed report (lines 180-223):
timestamp, then one info write per finding, then the aggregated count writes
in dict insertion order. -/
def reportOps (tsParse : Json → Option Int) (rep : Report) : List RegOp :=
  tsOps tsParse rep
    ++ (rep.vulnerabilities.map (infoOps rep.image)).flatten
    ++ (buildVulnCounts rep).map (fun kv => .setCount kv.1 kv.2)

/-- The full sequence of registry operations of one `update_metrics` call
(lines 139-226): both labeled families are cleared first; the empty-directory
and error paths set the scanned gauge to 0 and return; otherwise unparsable
reports are skipped and the scanned gauge is set last. -/
def updateOps (tsParse : Json → Option Int) (dir : DirState) : List RegOp :=
  [.clearCounts, .clearInfo] ++
    match dir with
    | .files fs =>
      if fs.isEmpty then [.setImagesScanned 0]
      else
        ((fs.map (fun f =>
            match parse_trivy_report f with
            | none => []
            | some rep => reportOps tsParse rep)).flatten)
          ++ [.setImagesScanned (fs.countP (fun f => (parse_trivy_report f).isSome))]
    | _ => [.setImagesScanned 0]

/-- `update_metrics`: the registry after all operations of one cycle. -/
def update_metrics (tsParse : Json → Option Int) (dir : DirState) (r : Registry) : Registry :=
  (updateOps tsParse dir).foldl applyOp r

/-- Every registry state a concurrent `/metrics` read can observe during one
`update_metrics` call: the state before the first operation and the state
after each operation.  The background loop mutates the registry in place with
no lock against the HTTP thread, so all of these are observable. -/
def observableStates (tsParse : Json → Option Int) (dir : DirState) (r : Registry) :
    List Registry :=
  List.scanl applyOp r (updateOps tsParse dir)

/-- Shared state of the main loop (`trivy-exporter.py` lines 59, 244-251):
the readiness event and the registry. -/
structure MainState where
  ready : Bool
  reg : Registry
deriving DecidableEq

/-- State at process start: `_ready` unset, registry at its defaults. -/
def initState : MainState := ⟨false, initRegistry⟩

/-- One iteration of the main loop (lines 244-251): run `update_metrics`,
then set `_ready`.  The modelled `update_metrics` is total, matching the
source's internal exception handling. -/
def cycleStep (tsParse : Json → Option Int) (dir : DirState) (s : MainState) : MainState :=
  ⟨true, update_metrics tsParse dir s.reg⟩

/-- The main loop over a finite schedule of cycles, recording the sleep after
each cycle: `time.sleep(SCAN_INTERVAL)` runs unconditionally (line 251). -/
def mainRun (tsParse : Json → Option Int) (interval : Nat) (dirs : List DirState)
    (s : MainState) : MainState × List Nat :=
  dirs.foldl (fun acc d => (cycleStep tsParse d acc.1, acc.2 ++ [interval])) (s, [])

/-- HTTP status returned by `MetricsAndHealthHandler.do_GET`
(`trivy-exporter.py` lines 70-88) for a path, given the shared state. -/
def do_GET (path : String) (s : MainState) : Nat :=
  if path = "/-/healthy" then 200
  else if path = "/-/ready" then (if s.ready then 200 else 503)
  else if path = "/metrics" ∨ path = "/metrics/" then 200
  else 404

/-- A report document whose fields are all strings, used to state claims over
well-formed inputs; `doc` is its JSON encoding in the shape
`trivy-exporter.py` consumes. -/
structure SVuln where
  vulnerability_id : String
  package : String
  installed_version : String
  fixed_version : String
  severity : String
  title : String

def SVuln.toJson (v : SVuln) : Json :=
  .jobj [("VulnerabilityID", .jstr v.vulnerability_id), ("PkgName", .jstr v.package),
         ("InstalledVersion", .jstr v.installed_version), ("FixedVersion", .jstr v.fixed_version),
         ("Severity", .jstr v.severity), ("Title", .jstr v.title)]

structure SReport where
  image : String
  results : List (List SVuln)

def SReport.doc (r : SReport) : Json :=
  .jobj [("ArtifactName", .jstr r.image),
         ("Results", .jarr (r.results.map (fun vs =>
            .jobj [("Vulnerabilities", .jarr (vs.map SVuln.toJson))])))]

/-- Total findings of a structured report, across all result sections. -/
def SReport.findings (r : SReport) : Nat :=
  (r.results.map List.length).sum

/-- The parsed `Vuln` entry a structured finding yields. -/
def SVuln.parsed (image : Json) (v : SVuln) : Vuln :=
  ⟨image, .jstr v.vulnerability_id, .jstr v.package, .jstr v.installed_version,
   .jstr v.fixed_version, .jstr v.severity, .jstr v.title⟩

/-- The `Report` value parsing a structured report document yields. -/
def SReport.parsed (p : SReport) : Report :=
  ⟨.jstr p.image, .jstr "",
   (p.results.map (fun vs => vs.map (SVuln.parsed (.jstr p.image)))).flatten⟩

end FileExporter

/-- Turn a raised Python exception (`Except.error ()`) into an exception
carrying the state `s` current at the raise point, so that partially applied
mutations survive across a raise. -/
def exceptR {σ α : Type} (s : σ) : Except Unit α → Except σ α
  | .ok a => .ok a
  | .error _ => .error s

namespace DashboardExporter

/-- One entry of the `vulnerabilities` list built by the dashboard variant's
`parse_trivy_report` (`dashboard/trivy_exporter.py` lines 66-75). -/
structure Vuln where
  image : Json
  target : Json
  vulnerability_id : Json
  package : Json
  installed_version : Json
  fixed_version : Json
  severity : Json
  title : Json

/-- The dict returned by the dashboard variant's `parse_trivy_report`. -/
structure Report where
  image : Json
  scan_time : Json
  vulnerabilities : List Vuln

/-- Body of the dashboard `parse_trivy_report` (lines 53-81).  Unlike the main
exporter there is no `or []` guard on `Vulnerabilities`, so a `null` value
raises (and the catch turns the whole parse into `None`). -/
def parseBody (data : Json) : Except Unit Report := do
  let image_name ← getD data "ArtifactName" (.jstr "unknown")
  let scan_time ← getD data "CreatedAt" (.jstr "")
  let resultsJ ← getD data "Results" (.jarr [])
  let results ← iterList resultsJ
  let vulnerabilities ← results.foldlM (fun (acc : List Vuln) result => do
      let target ← getD result "Target" (.jstr "")
      let vulnsJ ← getD result "Vulnerabilities" (.jarr [])
      let vulns ← iterList vulnsJ
      vulns.foldlM (fun (acc2 : List Vuln) vuln => do
          let vid ← getD vuln "VulnerabilityID" (.jstr "")
          let pkg ← getD vuln "PkgName" (.jstr "")
          let iv ← getD vuln "InstalledVersion" (.jstr "")
          let fv ← getD vuln "FixedVersion" (.jstr "")
          let sev ← getD vuln "Severity" (.jstr "UNKNOWN")
          let title ← getD vuln "Title" (.jstr "")
          pure (acc2 ++ [⟨image_name, target, vid, pkg, iv, fv, sev, title⟩])) acc) []
  pure ⟨image_name, scan_time, vulnerabilities⟩

/-- The dashboard variant's `parse_trivy_report` (lines 50-85). -/
def parse_trivy_report (input : Option Json) : Option Report :=
  match input with
  | none => none
  | some data =>
    match parseBody data with
    | .ok rep => some rep
    | .error _ => none

/-- Label tuple of the dashboard's `trivy_vulnerability_id` Info metric. -/
structure DInfoKey where
  vulnerability_id : String
  image : String
  package : String
  severity : String
deriving DecidableEq

/-- Value dict passed to `.info(...)`: installed version, fixed version, and
the title truncated to 100 characters. -/
structure DInfoVal where
  installed_version : String
  fixed_version : String
  title : String
deriving DecidableEq

/-- The registry state exposed by `dashboard/trivy_exporter.py` (lines
21-42): count family, Info family, timestamp family, and the scanned gauge. -/
structure Registry where
  counts : List (FileExporter.CountKey × Int)
  info : List (DInfoKey × DInfoVal)
  last_scan : List (String × Int)
  images_scanned : Int
deriving DecidableEq

/-- Per-report counting dict (lines 130-137), as in the main exporter. -/
def buildVulnCounts (rep : Report) : List (FileExporter.CountKey × Int) :=
  rep.vulnerabilities.foldl
    (fun m v => bump m ⟨pyStr rep.image, pyStr v.severity, pyStr v.package⟩) []

/-- One `trivy_vulnerability_id.labels(...).info(...)` call (lines 140-152):
skipped when slicing the title raises, the exception being caught and
logged. -/
def infoApply (image : Json) (v : Vuln) (r : Registry) : Registry :=
  match pySlice v.title 100 with
  | .ok tj =>
    { r with info := (setK r.info
        ⟨pyStr v.vulnerability_id, pyStr image, pyStr v.package, pyStr v.severity⟩
        ⟨pyStr v.installed_version, pyStr v.fixed_version, pyStr tj⟩) }
  | .error _ => r

/-- Metric updates for one successfully parsed report (lines 117-160). -/
def reportApply (tsParse : Json → Option Int) (rep : Report) (r : Registry) : Registry :=
  let r :=
    if truthy rep.scan_time then
      match tsParse rep.scan_time with
      | some t => { r with last_scan := setK r.last_scan (pyStr rep.image) t }
      | none => r
    else r
  let r := rep.vulnerabilities.foldl (fun r v => infoApply rep.image v r) r
  (buildVulnCounts rep).foldl (fun r kv => { r with counts := setK r.counts kv.1 kv.2 }) r

/-- Directory enumeration outcome for the dashboard variant (lines 90-100):
absent directory, a raising glob, or a file list. -/
inductive DirState where
  | absent
  | globRaises
  | files (fs : List (Option Json))

/-- The dashboard variant's `update_metrics` (lines 88-165).  The absent
directory path returns before clearing or setting anything; the count family
is cleared after the existence check; the empty-file path returns without
setting `trivy_images_scanned`; an uncaught glob exception escapes to `main`
(carrying the state mutated so far). -/
def update_metrics (tsParse : Json → Option Int) (dir : DirState) (r : Registry) :
    Except Registry Registry :=
  match dir with
  | .absent => .ok r
  | .globRaises => .error { r with counts := [] }
  | .files fs =>
    let r := { r with counts := [] }
    if fs.isEmpty then .ok r
    else
      let step := fun (acc : Registry × Int) (f : Option Json) =>
        match parse_trivy_report f with
        | none => acc
        | some rep => (reportApply tsParse rep acc.1, acc.2 + 1)
      let acc := fs.foldl step (r, 0)
      .ok { acc.1 with images_scanned := acc.2 }

end DashboardExporter

namespace PromExporter

/-- Label tuple of `trivy_image_vulnerabilities` in
`trivy-prometheus-exporter.py` (lines 23-27), in declaration order.  `image`
and `ns` come from the Kubernetes inventory and are already strings; the
remaining values come from the scan JSON and are stringified. -/
structure VKey where
  image : String
  severity : String
  ns : String
  vuln_id : String
  package_name : String
  installed_version : String
  fixed_version : String
deriving DecidableEq

/-- The registry state exposed by `trivy-prometheus-exporter.py` (lines
22-46).  The duration histogram is modelled as the list of observations per
image. -/
structure InvRegistry where
  vulnerability_gauge : List (VKey × Int)
  last_scan_timestamp : List ((String × String) × Nat)
  scan_duration : List (String × List Nat)
  scan_errors : List ((String × String) × Int)
deriving DecidableEq

/-- Registry at process start: no children exist yet. -/
def initInvRegistry : InvRegistry := ⟨[], [], [], []⟩

/-- Outcome of one `subprocess.run` invocation of the scanner: the process
returned (with its exit code and its stdout decoded by `json.loads`, `none`
when undecodable), timed out, or the invocation itself raised. -/
inductive ScanOutcome where
  | completed (returncode : Int) (stdout : Option Json)
  | timeout
  | raised

/-- One `scan_duration.labels(image=...).observe(d)` call. -/
def observeDuration (m : List (String × List Nat)) (image : String) (dur : Nat) :
    List (String × List Nat) :=
  setK m image (((lookupK m image).getD []) ++ [dur])

/-- `TrivyExporter.scan_image` (lines 100-150).  The duration is observed
only after `subprocess.run` returns (line 125); `TimeoutExpired` and any
other exception skip it.  On a decodable zero-exit scan the timestamp is set
and the error gauge reset to 0 (lines 137-138); every failure path sets the
error gauge to 1 and yields no data. -/
def scan_image (now dur : Nat) (outcome : ScanOutcome) (image ns : String)
    (r : InvRegistry) : InvRegistry × Option Json :=
  match outcome with
  | .completed returncode stdout =>
    let r := { r with scan_duration := observeDuration r.scan_duration image dur }
    if returncode ≠ 0 then
      ({ r with scan_errors := setK r.scan_errors (image, ns) 1 }, none)
    else
      match stdout with
      | none => ({ r with scan_errors := setK r.scan_errors (image, ns) 1 }, none)
      | some scan_data =>
        let r := { r with last_scan_timestamp := setK r.last_scan_timestamp (image, ns) now }
        ({ r with scan_errors := setK r.scan_errors (image, ns) 0 }, some scan_data)
  | .timeout => ({ r with scan_errors := setK r.scan_errors (image, ns) 1 }, none)
  | .raised => ({ r with scan_errors := setK r.scan_errors (image, ns) 1 }, none)

/-- Innermost body of `process_scan_results` (lines 165-183): extract the
five fields (defaults `UNKNOWN` / `N/A`) and set the gauge child to 1.  A
non-dict `vuln` raises out of the method. -/
def processVuln (image ns : String) (r : InvRegistry) (vuln : Json) :
    Except InvRegistry InvRegistry := do
  let severity ← exceptR r (getD vuln "Severity" (.jstr "UNKNOWN"))
  let vuln_id ← exceptR r (getD vuln "VulnerabilityID" (.jstr "N/A"))
  let pkg_name ← exceptR r (getD vuln "PkgName" (.jstr "N/A"))
  let installed_ver ← exceptR r (getD vuln "InstalledVersion" (.jstr "N/A"))
  let fixed_ver ← exceptR r (getD vuln "FixedVersion" (.jstr "N/A"))
  pure { r with vulnerability_gauge := (setK r.vulnerability_gauge
      ⟨image, pyStr severity, ns, pyStr vuln_id, pyStr pkg_name,
       pyStr installed_ver, pyStr fixed_ver⟩ 1) }

/-- One iteration of the outer `for result in scan_data.get('Results', [])`
loop (lines 162-183).  There is no `or []` guard here: a `null`
`Vulnerabilities` value raises out of the method. -/
def processResult (image ns : String) (r : InvRegistry) (result : Json) :
    Except InvRegistry InvRegistry := do
  let vulnsJ ← exceptR r (getD result "Vulnerabilities" (.jarr []))
  let vulns ← exceptR r (iterList vulnsJ)
  vulns.foldlM (processVuln image ns) r

/-- `TrivyExporter.process_scan_results` (lines 152-185).  Falsy data or data
without a `Results` member returns unchanged; membership tests and attribute
access on ill-typed data raise out of the method, carrying the mutations made
so far. -/
def process_scan_results (image ns : String) (scan_data : Json) (r : InvRegistry) :
    Except InvRegistry InvRegistry :=
  if truthy scan_data = false then .ok r
  else
    match pyIn "Results" scan_data with
    | .error _ => .error r
    | .ok mem =>
      if mem = false then .ok r
      else
        match getD scan_data "Results" (.jarr []) with
        | .error _ => .error r
        | .ok resultsJ =>
          match iterList resultsJ with
          | .error _ => .error r
          | .ok results => results.foldlM (processResult image ns) r

/-- One iteration of the `scan_all_images` loop body (lines 195-201): scan
the subject, and process its results only when the scan produced data. -/
def scanOne (now : Nat) (durOf : String × String → Nat)
    (outcomes : String × String → ScanOutcome) (r : InvRegistry)
    (subject : String × String) : Except InvRegistry InvRegistry :=
  match scan_image now (durOf subject) (outcomes subject) subject.1 subject.2 r with
  | (r1, some d) => process_scan_results subject.1 subject.2 d r1
  | (r1, none) => .ok r1

/-- `TrivyExporter.scan_all_images` (lines 187-201): an empty inventory
returns immediately; otherwise each subject is scanned in order, an uncaught
exception aborting the remainder of the cycle. -/
def scan_all_images (outcomes : String × String → ScanOutcome)
    (durOf : String × String → Nat) (now : Nat)
    (images : List (String × String)) (r : InvRegistry) :
    Except InvRegistry InvRegistry :=
  if images.isEmpty then .ok r
  else images.foldlM (scanOne now durOf outcomes) r

/-- The enumeration and scan conditions of one cycle of `TrivyExporter.run`. -/
structure CycleInput where
  images : List (String × String)
  outcomes : String × String → ScanOutcome
  durOf : String × String → Nat
  now : Nat

/-- `TrivyExporter.run` (lines 203-220) over a finite schedule of cycles,
recording the sleep after each cycle: `interval` seconds after a completed
cycle (line 212), a fixed 60 seconds after a cycle aborted by an exception
(line 220). -/
def run (interval : Nat) (cycles : List CycleInput) (r : InvRegistry) :
    InvRegistry × List Nat :=
  cycles.foldl (fun acc c =>
    match scan_all_images c.outcomes c.durOf c.now c.images acc.1 with
    | .ok r2 => (r2, acc.2 ++ [interval])
    | .error rp => (rp, acc.2 ++ [60])) (r, [])

/-- A scan attempt that fails in one of the three modes named by the spec:
non-zero exit, timeout, or undecodable output (plus a raising invocation,
which the source treats like the others). -/
def isScanFailure : ScanOutcome → Bool
  | .completed ec stdout => decide (ec ≠ 0) || stdout.isNone
  | .timeout => true
  | .raised => true

/-- The value `scan_image` leaves in the subject's own error gauge child:
0 exactly for a decodable zero-exit scan, 1 for every failure mode. -/
def errorsAfterSelf : ScanOutcome → Int
  | .completed ec (some _) => if ec ≠ 0 then 1 else 0
  | _ => 1

end PromExporter

/-! Generic lemmas about the association-list metric families. -/

theorem lookupK_cons {κ ν : Type} [DecidableEq κ] (k2 : κ) (v : ν) (m : List (κ × ν)) (k : κ) :
    lookupK ((k2, v) :: m) k = if k2 = k then some v else lookupK m k := rfl

theorem lookupK_setK_self {κ ν : Type} [DecidableEq κ] (m : List (κ × ν)) (k : κ) (v : ν) :
    lookupK (setK m k v) k = some v := by
  simp [setK, lookupK]

theorem lookupK_filter_ne {κ ν : Type} [DecidableEq κ] (m : List (κ × ν)) (k k' : κ)
    (h : k' ≠ k) :
    lookupK (m.filter (fun p => !decide (p.1 = k))) k' = lookupK m k' := by
  induction m with
  | nil => rfl
  | cons p rest ih =>
    rcases p with ⟨pk, pv⟩
    by_cases hp : pk = k
    · rw [List.filter_cons_of_neg (by simp [hp]), lookupK_cons,
        if_neg (by rw [hp]; exact fun he => h he.symm), ih]
    · rw [List.filter_cons_of_pos (by simp [hp]), lookupK_cons, lookupK_cons, ih]

theorem lookupK_setK_other {κ ν : Type} [DecidableEq κ] (m : List (κ × ν)) (k k' : κ) (v : ν)
    (h : k' ≠ k) : lookupK (setK m k v) k' = lookupK m k' := by
  have hkk : ¬ (k = k') := fun he => h he.symm
  rw [setK, lookupK_cons, if_neg hkk]
  have := lookupK_filter_ne m k k' h
  simpa [ne_eq] using this

theorem sumVals_cons {κ : Type} (k : κ) (v : Int) (m : List (κ × Int)) :
    sumVals ((k, v) :: m) = v + sumVals m := by
  simp [sumVals]

theorem sumVals_append {κ : Type} (m m2 : List (κ × Int)) :
    sumVals (m ++ m2) = sumVals m + sumVals m2 := by
  simp [sumVals]

theorem mem_keysOf_of_mem {κ ν : Type} {p : κ × ν} {m : List (κ × ν)} (h : p ∈ m) :
    p.1 ∈ keysOf m := List.mem_map_of_mem Prod.fst h

theorem filter_ne_eq_self_of_not_mem {κ ν : Type} [DecidableEq κ] {m : List (κ × ν)} {k : κ}
    (h : k ∉ keysOf m) : m.filter (fun p => decide (p.1 ≠ k)) = m := by
  apply List.filter_eq_self.mpr
  intro p hp
  have : p.1 ≠ k := fun he => h (he ▸ mem_keysOf_of_mem hp)
  simpa using this

theorem sumVals_setK_of_not_mem {κ : Type} [DecidableEq κ] {m : List (κ × Int)} {k : κ}
    (v : Int) (h : k ∉ keysOf m) : sumVals (setK m k v) = sumVals m + v := by
  rw [setK, filter_ne_eq_self_of_not_mem h, sumVals_cons]
  ring

theorem mem_keysOf_setK {κ ν : Type} [DecidableEq κ] {m : List (κ × ν)} {k a : κ} {v : ν}
    (h : a ∈ keysOf (setK m k v)) : a = k ∨ a ∈ keysOf m := by
  rcases List.mem_map.mp h with ⟨p, hp, hpa⟩
  rcases List.mem_cons.mp hp with he | hmem
  · left; rw [← hpa, he]
  · right; exact hpa ▸ mem_keysOf_of_mem (List.mem_of_mem_filter hmem)

theorem mem_keysOf_bump {κ : Type} [DecidableEq κ] {m : List (κ × Int)} {k a : κ}
    (h : a ∈ keysOf (bump m k)) : a = k ∨ a ∈ keysOf m := by
  unfold bump at h
  by_cases hc : m.any (fun p => decide (p.1 = k)) = true
  · rw [if_pos hc] at h
    rcases List.mem_map.mp h with ⟨p, hp, hpa⟩
    rcases List.mem_map.mp hp with ⟨q, hq, hqp⟩
    right
    subst hpa
    by_cases hqk : q.1 = k
    · rw [← hqp]; simp only [if_pos hqk]; exact hqk ▸ mem_keysOf_of_mem hq
    · rw [← hqp]; simp only [if_neg hqk]; exact mem_keysOf_of_mem hq
  · rw [if_neg hc] at h
    rw [keysOf, List.map_append] at h
    rcases List.mem_append.mp h with hmem | hmem
    · right; exact hmem
    · left; simpa using hmem

theorem keysOf_bump_nodup {κ : Type} [DecidableEq κ] {m : List (κ × Int)} (k : κ)
    (h : (keysOf m).Nodup) : (keysOf (bump m k)).Nodup := by
  unfold bump
  by_cases hc : m.any (fun p => decide (p.1 = k)) = true
  · rw [if_pos hc]
    have : keysOf (m.map (fun p => if p.1 = k then (p.1, p.2 + 1) else p)) = keysOf m := by
      rw [keysOf, keysOf, List.map_map]
      apply List.map_congr_left
      intro p _
      by_cases hp : p.1 = k <;> simp [hp]
    rw [this]; exact h
  · rw [if_neg hc]
    have hnot : k ∉ keysOf m := by
      intro hk
      rcases List.mem_map.mp hk with ⟨p, hp, hpk⟩
      exact hc (List.any_eq_true.mpr ⟨p, hp, by simpa using hpk⟩)
    have hka : keysOf (m ++ [(k, 1)]) = keysOf m ++ [k] := by simp [keysOf]
    rw [hka, List.nodup_append]
    refine ⟨h, List.nodup_singleton k, ?_⟩
    intro a ham hak
    rw [List.mem_singleton] at hak
    exact hnot (hak ▸ ham)


theorem keysOf_cons {κ ν : Type} (p : κ × ν) (m : List (κ × ν)) :
    keysOf (p :: m) = p.1 :: keysOf m := rfl

theorem sumVals_map_bump_of_mem {κ : Type} [DecidableEq κ] {m : List (κ × Int)} (k : κ)
    (hnd : (keysOf m).Nodup) (hc : m.any (fun p => decide (p.1 = k)) = true) :
    sumVals (m.map (fun p => if p.1 = k then (p.1, p.2 + 1) else p)) = sumVals m + 1 := by
  induction m with
  | nil => simp at hc
  | cons p rest ih =>
    rw [keysOf_cons, List.nodup_cons] at hnd
    obtain ⟨hhead, hnd2⟩ := hnd
    by_cases hp : p.1 = k
    · have hrest : rest.map (fun q => if q.1 = k then (q.1, q.2 + 1) else q) = rest := by
        have hcg : ∀ q ∈ rest, (if q.1 = k then (q.1, q.2 + 1) else q) = q := by
          intro q hq
          have : q.1 ≠ k := fun he => hhead (by rw [hp, ← he]; exact mem_keysOf_of_mem hq)
          simp [this]
        exact (List.map_congr_left hcg).trans (List.map_id rest)
      rw [List.map_cons, if_pos hp, hrest]
      rcases p with ⟨pk, pv⟩
      rw [sumVals_cons, sumVals_cons]
      ring
    · have hcrest : rest.any (fun q => decide (q.1 = k)) = true := by
        rw [List.any_cons] at hc
        rcases Bool.or_eq_true_iff.mp hc with hh | ht
        · exact absurd (of_decide_eq_true hh) hp
        · exact ht
      rw [List.map_cons, if_neg hp]
      rcases p with ⟨pk, pv⟩
      rw [sumVals_cons, sumVals_cons, ih hnd2 hcrest]
      ring

theorem sumVals_bump {κ : Type} [DecidableEq κ] {m : List (κ × Int)} (k : κ)
    (h : (keysOf m).Nodup) : sumVals (bump m k) = sumVals m + 1 := by
  unfold bump
  by_cases hc : m.any (fun p => decide (p.1 = k)) = true
  · rw [if_pos hc]
    exact sumVals_map_bump_of_mem k h hc
  · rw [if_neg hc, sumVals_append, sumVals_cons]
    simp [sumVals]

/-- Writing a batch of key/value pairs into a family with `set`, in order. -/
def setKFold {κ : Type} [DecidableEq κ] (c : List (κ × Int)) (items : List (κ × Int)) :
    List (κ × Int) :=
  items.foldl (fun c kv => setK c kv.1 kv.2) c

theorem setKFold_sum {κ : Type} [DecidableEq κ] (items : List (κ × Int)) :
    ∀ c : List (κ × Int), (keysOf items).Nodup →
      (∀ a ∈ keysOf items, a ∉ keysOf c) →
      sumVals (setKFold c items) = sumVals c + sumVals items ∧
      ∀ a ∈ keysOf (setKFold c items), a ∈ keysOf c ∨ a ∈ keysOf items := by
  induction items with
  | nil =>
    intro c _ _
    exact ⟨by simp [setKFold, sumVals], fun a ha => Or.inl ha⟩
  | cons kv rest ih =>
    intro c hnd hdisj
    rcases kv with ⟨k, v⟩
    rw [keysOf_cons] at hnd
    obtain ⟨hknotin, hnd2⟩ := List.nodup_cons.mp hnd
    have hkc : k ∉ keysOf c := hdisj k (by rw [keysOf_cons]; exact List.mem_cons_self _ _)
    have hstep : setKFold c ((k, v) :: rest) = setKFold (setK c k v) rest := rfl
    have hdisj2 : ∀ a ∈ keysOf rest, a ∉ keysOf (setK c k v) := by
      intro a ha hmem
      rcases mem_keysOf_setK hmem with he | hc2
      · exact hknotin (he ▸ ha)
      · exact hdisj a (by rw [keysOf_cons]; exact List.mem_cons_of_mem _ ha) hc2
    obtain ⟨hsum, hkeys⟩ := ih (setK c k v) hnd2 hdisj2
    constructor
    · rw [hstep, hsum, sumVals_setK_of_not_mem v hkc, sumVals_cons]
      ring
    · intro a ha
      rw [hstep] at ha
      rcases hkeys a ha with hsk | hr
      · rcases mem_keysOf_setK hsk with he | hc2
        · right; rw [keysOf_cons, he]; exact List.mem_cons_self _ _
        · left; exact hc2
      · right; rw [keysOf_cons]; exact List.mem_cons_of_mem _ hr

theorem bumpFold_props {κ α : Type} [DecidableEq κ] (key : α → κ) (l : List α) :
    ∀ m : List (κ × Int), (keysOf m).Nodup →
      (keysOf (l.foldl (fun m v => bump m (key v)) m)).Nodup ∧
      sumVals (l.foldl (fun m v => bump m (key v)) m) = sumVals m + l.length ∧
      ∀ a ∈ keysOf (l.foldl (fun m v => bump m (key v)) m),
        a ∈ keysOf m ∨ ∃ v ∈ l, a = key v := by
  induction l with
  | nil =>
    intro m h
    exact ⟨h, by simp, fun a ha => Or.inl ha⟩
  | cons x rest ih =>
    intro m h
    have h2 := keysOf_bump_nodup (key x) h
    obtain ⟨hnd, hsum, hkeys⟩ := ih (bump m (key x)) h2
    refine ⟨by simpa using hnd, ?_, ?_⟩
    · simp only [List.foldl_cons]
      rw [hsum, sumVals_bump (key x) h, List.length_cons]
      push_cast
      ring
    · intro a ha
      simp only [List.foldl_cons] at ha
      rcases hkeys a ha with hb | ⟨v, hv, hav⟩
      · rcases mem_keysOf_bump hb with he | hm
        · right; exact ⟨x, List.mem_cons_self _ _, he⟩
        · left; exact hm
      · right; exact ⟨v, List.mem_cons_of_mem _ hv, hav⟩

namespace FileExporter

/-- Projection of one registry operation onto the count family. -/
def countsStep (c : List (CountKey × Int)) : RegOp → List (CountKey × Int)
  | .clearCounts => []
  | .setCount k v => setK c k v
  | _ => c

theorem applyOp_counts (r : Registry) (op : RegOp) :
    (applyOp r op).counts = countsStep r.counts op := by
  cases op <;> rfl

theorem foldl_applyOp_counts (ops : List RegOp) : ∀ r : Registry,
    (ops.foldl applyOp r).counts = ops.foldl countsStep r.counts := by
  induction ops with
  | nil => intro r; rfl
  | cons op rest ih =>
    intro r
    rw [List.foldl_cons, List.foldl_cons, ih, applyOp_counts]

theorem foldl_countsStep_tsOps (ts : Json → Option Int) (rep : Report)
    (c : List (CountKey × Int)) : (tsOps ts rep).foldl countsStep c = c := by
  unfold tsOps
  by_cases h : truthy rep.scan_time = true
  · rw [if_pos h]
    cases ts rep.scan_time <;> rfl
  · rw [if_neg h]
    rfl

theorem foldl_countsStep_infoOps (img : Json) (v : Vuln) (c : List (CountKey × Int)) :
    (infoOps img v).foldl countsStep c = c := by
  unfold infoOps
  by_cases h : truthy v.fixed_version = true
  · rw [if_pos h]
    cases pySlice v.fixed_version 64 <;> rfl
  · rw [if_neg h]
    rfl

theorem foldl_countsStep_infoFlat (img : Json) (vs : List Vuln) :
    ∀ c : List (CountKey × Int), ((vs.map (infoOps img)).flatten).foldl countsStep c = c := by
  induction vs with
  | nil => intro c; rfl
  | cons v rest ih =>
    intro c
    rw [List.map_cons, List.flatten_cons, List.foldl_append, foldl_countsStep_infoOps, ih]

theorem foldl_countsStep_countMaps (items : List (CountKey × Int)) :
    ∀ c : List (CountKey × Int),
      ((items.map (fun kv => RegOp.setCount kv.1 kv.2)).foldl countsStep c) = setKFold c items := by
  induction items with
  | nil => intro c; rfl
  | cons kv rest ih =>
    intro c
    rw [List.map_cons, List.foldl_cons, setKFold]
    exact ih (setK c kv.1 kv.2)

theorem foldl_countsStep_reportOps (ts : Json → Option Int) (rep : Report)
    (c : List (CountKey × Int)) :
    (reportOps ts rep).foldl countsStep c = setKFold c (buildVulnCounts rep) := by
  rw [reportOps, List.foldl_append, List.foldl_append, foldl_countsStep_tsOps,
    foldl_countsStep_infoFlat, foldl_countsStep_countMaps]

/-- The reports of a cycle that parse successfully, in order. -/
def parsedReports (fs : List (Option Json)) : List Report :=
  fs.filterMap parse_trivy_report

theorem foldl_countsStep_files (ts : Json → Option Int) (fs : List (Option Json)) :
    ∀ c : List (CountKey × Int),
      (((fs.map (fun f =>
          match parse_trivy_report f with
          | none => []
          | some rep => reportOps ts rep)).flatten).foldl countsStep c)
        = (parsedReports fs).foldl (fun c rep => setKFold c (buildVulnCounts rep)) c := by
  induction fs with
  | nil => intro c; rfl
  | cons f rest ih =>
    intro c
    rw [List.map_cons, List.flatten_cons, List.foldl_append]
    cases hf : parse_trivy_report f with
    | none =>
      simp only [List.foldl_nil]
      rw [ih c]
      simp only [parsedReports, List.filterMap_cons, hf]
    | some rep =>
      rw [foldl_countsStep_reportOps, ih (setKFold c (buildVulnCounts rep))]
      simp only [parsedReports, List.filterMap_cons, hf, List.foldl_cons]

/-- Characterization of the count family after one `update_metrics` call on a
file listing: erased and rebuilt from the successfully parsed reports. -/
theorem update_metrics_counts_files (ts : Json → Option Int) (fs : List (Option Json))
    (r : Registry) :
    (update_metrics ts (.files fs) r).counts =
      if fs.isEmpty then []
      else (parsedReports fs).foldl (fun c rep => setKFold c (buildVulnCounts rep)) [] := by
  rw [update_metrics, foldl_applyOp_counts, updateOps]
  by_cases hfs : fs.isEmpty = true
  · rw [if_pos hfs]
    simp only [List.cons_append, List.nil_append]
    rw [if_pos hfs]
    rfl
  · rw [if_neg hfs]
    simp only [List.cons_append, List.nil_append]
    rw [if_neg hfs, List.foldl_cons, List.foldl_cons, List.foldl_append,
      foldl_countsStep_files]
    rfl

/-- Properties of one report's counting dict: unique keys, values summing to
the report's finding count, and every key labelled with the report's image. -/
theorem buildVulnCounts_props (rep : Report) :
    (keysOf (buildVulnCounts rep)).Nodup ∧
    sumVals (buildVulnCounts rep) = (rep.vulnerabilities.length : Int) ∧
    ∀ a ∈ keysOf (buildVulnCounts rep), a.image = pyStr rep.image := by
  obtain ⟨hnd, hsum, hkeys⟩ :=
    bumpFold_props (fun v : Vuln => (⟨pyStr rep.image, pyStr v.severity, pyStr v.package⟩ : CountKey))
      rep.vulnerabilities [] (by simp [keysOf])
  refine ⟨hnd, ?_, ?_⟩
  · rw [buildVulnCounts, hsum]
    simp [sumVals]
  · intro a ha
    rcases hkeys a ha with h0 | ⟨v, _, hav⟩
    · simp [keysOf] at h0
    · rw [hav]

/-- Summing the count family across sequentially applied reports with
pairwise-distinct image labels. -/
theorem countsFold_sum (reps : List Report) :
    ∀ c : List (CountKey × Int),
      ((reps.map (fun rp => pyStr rp.image)).Nodup) →
      (∀ a ∈ keysOf c, a.image ∉ reps.map (fun rp => pyStr rp.image)) →
      sumVals (reps.foldl (fun c rep => setKFold c (buildVulnCounts rep)) c)
        = sumVals c + ((reps.map (fun rp => rp.vulnerabilities.length)).sum : Int) := by
  induction reps with
  | nil =>
    intro c _ _
    simp
  | cons rep rest ih =>
    intro c hnd hdisj
    rw [List.map_cons, List.nodup_cons] at hnd
    obtain ⟨himg, hnd2⟩ := hnd
    obtain ⟨hbnd, hbsum, hbkeys⟩ := buildVulnCounts_props rep
    have hdisj1 : ∀ a ∈ keysOf (buildVulnCounts rep), a ∉ keysOf c := by
      intro a ha hac
      have h1 := hbkeys a ha
      have h2 := hdisj a hac
      rw [List.map_cons] at h2
      exact h2 (h1 ▸ List.mem_cons_self _ _)
    obtain ⟨hsum1, hkeys1⟩ := setKFold_sum (buildVulnCounts rep) c hbnd hdisj1
    have hdisj2 : ∀ a ∈ keysOf (setKFold c (buildVulnCounts rep)),
        a.image ∉ rest.map (fun rp => pyStr rp.image) := by
      intro a ha hmem
      rcases hkeys1 a ha with hc | hb
      · have := hdisj a hc
        rw [List.map_cons] at this
        exact this (List.mem_cons_of_mem _ hmem)
      · exact himg ((hbkeys a hb) ▸ hmem)
    rw [List.foldl_cons, ih (setKFold c (buildVulnCounts rep)) hnd2 hdisj2, hsum1,
      List.map_cons, List.sum_cons, hbsum]
    ring

end FileExporter

namespace FileExporter

theorem parseVulnStep_svuln (img : Json) (v : SVuln) (acc : List Vuln) :
    parseVulnStep img acc (SVuln.toJson v) = Except.ok (acc ++ [SVuln.parsed img v]) := rfl

theorem foldlM_parseVulnStep_svulns (img : Json) (vs : List SVuln) :
    ∀ acc : List Vuln,
      (vs.map SVuln.toJson).foldlM (parseVulnStep img) acc
        = Except.ok (acc ++ vs.map (SVuln.parsed img)) := by
  induction vs with
  | nil =>
    intro acc
    rw [List.map_nil, List.foldlM_nil, List.map_nil, List.append_nil]
    rfl
  | cons v rest ih =>
    intro acc
    rw [List.map_cons, List.foldlM_cons, parseVulnStep_svuln]
    show (rest.map SVuln.toJson).foldlM (parseVulnStep img) (acc ++ [SVuln.parsed img v])
        = Except.ok (acc ++ (v :: rest).map (SVuln.parsed img))
    rw [ih (acc ++ [SVuln.parsed img v])]
    simp

theorem parseResultStep_svulns (img : Json) (vs : List SVuln) (acc : List Vuln) :
    parseResultStep img acc (.jobj [("Vulnerabilities", .jarr (vs.map SVuln.toJson))])
      = Except.ok (acc ++ vs.map (SVuln.parsed img)) := by
  cases vs with
  | nil =>
    show Except.ok acc = Except.ok (acc ++ List.map (SVuln.parsed img) [])
    rw [List.map_nil, List.append_nil]
  | cons v rest =>
    have hred : parseResultStep img acc
        (.jobj [("Vulnerabilities", .jarr ((v :: rest).map SVuln.toJson))])
        = ((v :: rest).map SVuln.toJson).foldlM (parseVulnStep img) acc := rfl
    rw [hred, foldlM_parseVulnStep_svulns]

theorem foldlM_parseResultStep_sections (img : Json) (sections : List (List SVuln)) :
    ∀ acc : List Vuln,
      ((sections.map (fun vs =>
          Json.jobj [("Vulnerabilities", .jarr (vs.map SVuln.toJson))])).foldlM
            (parseResultStep img) acc)
        = Except.ok (acc ++ (sections.map (fun vs => vs.map (SVuln.parsed img))).flatten) := by
  induction sections with
  | nil =>
    intro acc
    rw [List.map_nil, List.foldlM_nil, List.map_nil, List.flatten_nil, List.append_nil]
    rfl
  | cons vs rest ih =>
    intro acc
    rw [List.map_cons, List.foldlM_cons, parseResultStep_svulns]
    show ((rest.map (fun vs =>
        Json.jobj [("Vulnerabilities", .jarr (vs.map SVuln.toJson))])).foldlM
          (parseResultStep img) (acc ++ vs.map (SVuln.parsed img)))
        = _
    rw [ih (acc ++ vs.map (SVuln.parsed img))]
    simp

/-- Parsing a structured report document succeeds and yields exactly its
structured content, with the missing `CreatedAt` defaulted to the empty
string. -/
theorem parse_sreport (p : SReport) :
    parse_trivy_report (some p.doc) = some p.parsed := by
  have hbody : parseBody p.doc
      = ((p.results.map (fun vs =>
          Json.jobj [("Vulnerabilities", .jarr (vs.map SVuln.toJson))])).foldlM
            (parseResultStep (.jstr p.image)) []) >>= (fun vl =>
              Except.ok (⟨.jstr p.image, .jstr "", vl⟩ : Report)) := rfl
  rw [parse_trivy_report, hbody, foldlM_parseResultStep_sections]
  rfl

theorem parsedReports_sreports (reps : List SReport) :
    parsedReports (reps.map (fun p => some p.doc)) = reps.map SReport.parsed := by
  induction reps with
  | nil => rfl
  | cons p rest ih =>
    rw [List.map_cons, parsedReports, List.filterMap_cons, parse_sreport]
    rw [parsedReports] at ih
    rw [ih, List.map_cons]

theorem sreport_parsed_length (p : SReport) :
    (p.parsed).vulnerabilities.length = p.findings := by
  rw [SReport.parsed, SReport.findings]
  simp only [List.length_flatten, List.map_map]
  congr 1
  apply List.map_congr_left
  intro vs _
  simp

end FileExporter

theorem scanl_head {α β : Type} (f : β → α → β) (b : β) (l : List α) :
    (List.scanl f b l).head? = some b := by
  cases l <;> rfl

theorem scanl_getLast {α β : Type} (f : β → α → β) :
    ∀ (l : List α) (b : β), (List.scanl f b l).getLast? = some (l.foldl f b) := by
  intro l
  induction l with
  | nil => intro b; rfl
  | cons a t ih =>
    intro b
    cases t with
    | nil => rfl
    | cons a2 t2 =>
      have h1 : List.scanl f b (a :: a2 :: t2) = b :: List.scanl f (f b a) (a2 :: t2) := by
        simp [List.scanl_cons]
      have h2 : List.scanl f (f b a) (a2 :: t2)
          = (f b a) :: List.scanl f (f (f b a) a2) t2 := by
        simp [List.scanl_cons]
      rw [h1, h2, List.getLast?_cons_cons, ← h2, ih (f b a), List.foldl_cons]
      rfl

namespace FileExporter

theorem cycleStep_ready (ts : Json → Option Int) (dir : DirState) (s : MainState) :
    (cycleStep ts dir s).ready = true := rfl

theorem mainRun_fold_ready (ts : Json → Option Int) (interval : Nat) (dirs : List DirState) :
    ∀ acc : MainState × List Nat, acc.1.ready = true →
      ((dirs.foldl (fun acc d => (cycleStep ts d acc.1, acc.2 ++ [interval])) acc).1).ready
        = true := by
  induction dirs with
  | nil => intro acc h; exact h
  | cons d rest ih =>
    intro acc _
    rw [List.foldl_cons]
    exact ih _ rfl

theorem mainRun_ready_of_cons (ts : Json → Option Int) (interval : Nat) (d : DirState)
    (dirs : List DirState) (s : MainState) :
    ((mainRun ts interval (d :: dirs) s).1).ready = true := by
  rw [mainRun, List.foldl_cons]
  exact mainRun_fold_ready ts interval dirs _ rfl

theorem mainRun_latch (ts : Json → Option Int) (interval : Nat) (dirs : List DirState)
    (r : Registry) : ((mainRun ts interval dirs ⟨true, r⟩).1).ready = true := by
  rw [mainRun]
  exact mainRun_fold_ready ts interval dirs _ rfl

theorem mainRun_sleeps_aux (ts : Json → Option Int) (interval : Nat) (dirs : List DirState) :
    ∀ acc : MainState × List Nat,
      ((dirs.foldl (fun acc d => (cycleStep ts d acc.1, acc.2 ++ [interval])) acc).2)
        = acc.2 ++ List.replicate dirs.length interval := by
  induction dirs with
  | nil => intro acc; simp
  | cons d rest ih =>
    intro acc
    rw [List.foldl_cons, ih]
    rw [List.length_cons, List.replicate_succ, List.append_assoc]
    rfl

/-- The file-backed main loop sleeps the configured interval after every
cycle, without exception. -/
theorem mainRun_sleeps (ts : Json → Option Int) (interval : Nat) (dirs : List DirState)
    (s : MainState) :
    (mainRun ts interval dirs s).2 = List.replicate dirs.length interval := by
  rw [mainRun, mainRun_sleeps_aux]
  simp

end FileExporter

namespace PromExporter

/-- The registry a step leaves behind, whether it returned or raised. -/
def regOf : Except InvRegistry InvRegistry → InvRegistry
  | .ok r => r
  | .error r => r

/-- Preservation along a monadic fold: if each step of the list relates its
input registry to its outcome registry, the whole fold does. -/
theorem foldlM_regOf_pres {α : Type} (f : InvRegistry → α → Except InvRegistry InvRegistry)
    (Q : InvRegistry → InvRegistry → Prop) (hrefl : ∀ r, Q r r)
    (htrans : ∀ a b c, Q a b → Q b c → Q a c) :
    ∀ (l : List α) (r : InvRegistry), (∀ r2 a, a ∈ l → Q r2 (regOf (f r2 a))) →
      Q r (regOf (l.foldlM f r)) := by
  intro l
  induction l with
  | nil => intro r _; exact hrefl r
  | cons a t ih =>
    intro r hstep
    rw [List.foldlM_cons]
    cases hf : f r a with
    | error e =>
      have hq := hstep r a (List.mem_cons_self a t)
      rw [hf] at hq
      exact hq
    | ok r2 =>
      have hq : Q r r2 := by
        have := hstep r a (List.mem_cons_self a t)
        rwa [hf] at this
      exact htrans _ _ _ hq (ih r2 (fun r3 a2 ha2 => hstep r3 a2 (List.mem_cons_of_mem a ha2)))

/-- What `process_scan_results` can do to the registry: only gauge children
labelled with its own image and namespace; every other family and every other
gauge child is untouched. -/
def ProcFrame (image ns : String) (r r2 : InvRegistry) : Prop :=
  r2.last_scan_timestamp = r.last_scan_timestamp ∧
  r2.scan_duration = r.scan_duration ∧
  r2.scan_errors = r.scan_errors ∧
  ∀ k : VKey, ¬(k.image = image ∧ k.ns = ns) →
    lookupK r2.vulnerability_gauge k = lookupK r.vulnerability_gauge k

theorem procFrame_refl (image ns : String) (r : InvRegistry) : ProcFrame image ns r r :=
  ⟨rfl, rfl, rfl, fun _ _ => rfl⟩

theorem procFrame_trans (image ns : String) (a b c : InvRegistry)
    (h1 : ProcFrame image ns a b) (h2 : ProcFrame image ns b c) : ProcFrame image ns a c := by
  obtain ⟨e1, e2, e3, e4⟩ := h1
  obtain ⟨f1, f2, f3, f4⟩ := h2
  exact ⟨f1.trans e1, f2.trans e2, f3.trans e3, fun k hk => (f4 k hk).trans (e4 k hk)⟩

theorem processVuln_frame (image ns : String) (r : InvRegistry) (vuln : Json) :
    ProcFrame image ns r (regOf (processVuln image ns r vuln)) := by
  cases vuln with
  | jobj fields =>
    refine ⟨rfl, rfl, rfl, ?_⟩
    intro k hk
    apply lookupK_setK_other
    intro he
    exact hk (by rw [he]; exact ⟨rfl, rfl⟩)
  | jnull => exact procFrame_refl image ns r
  | jbool b => exact procFrame_refl image ns r
  | jnum n => exact procFrame_refl image ns r
  | jstr s => exact procFrame_refl image ns r
  | jarr xs => exact procFrame_refl image ns r

theorem processResult_frame (image ns : String) (r : InvRegistry) (result : Json) :
    ProcFrame image ns r (regOf (processResult image ns r result)) := by
  cases result with
  | jobj fields =>
    show ProcFrame image ns r (regOf
      (exceptR r (iterList ((lookupK fields "Vulnerabilities").getD (.jarr []))) >>=
        fun vulns => vulns.foldlM (processVuln image ns) r))
    cases hv : iterList ((lookupK fields "Vulnerabilities").getD (.jarr [])) with
    | error e => exact procFrame_refl image ns r
    | ok vulns =>
      show ProcFrame image ns r (regOf (vulns.foldlM (processVuln image ns) r))
      exact foldlM_regOf_pres _ _ (procFrame_refl image ns) (procFrame_trans image ns)
        vulns r (fun r2 a _ => processVuln_frame image ns r2 a)
  | jnull => exact procFrame_refl image ns r
  | jbool b => exact procFrame_refl image ns r
  | jnum n => exact procFrame_refl image ns r
  | jstr s => exact procFrame_refl image ns r
  | jarr xs => exact procFrame_refl image ns r

theorem process_scan_results_frame (image ns : String) (scan_data : Json) (r : InvRegistry) :
    ProcFrame image ns r (regOf (process_scan_results image ns scan_data r)) := by
  unfold process_scan_results
  by_cases ht : truthy scan_data = false
  · rw [if_pos ht]
    exact procFrame_refl image ns r
  · rw [if_neg ht]
    cases hm : pyIn "Results" scan_data with
    | error e => exact procFrame_refl image ns r
    | ok mem =>
      cases mem with
      | false => exact procFrame_refl image ns r
      | true =>
        show ProcFrame image ns r (regOf
          (match getD scan_data "Results" (Json.jarr []) with
           | Except.error _ => Except.error r
           | Except.ok resultsJ =>
             match iterList resultsJ with
             | Except.error _ => Except.error r
             | Except.ok results => List.foldlM (processResult image ns) r results))
        cases hg : getD scan_data "Results" (.jarr []) with
        | error e => exact procFrame_refl image ns r
        | ok resultsJ =>
          show ProcFrame image ns r (regOf
            (match iterList resultsJ with
             | Except.error _ => Except.error r
             | Except.ok results => List.foldlM (processResult image ns) r results))
          cases hi : iterList resultsJ with
          | error e => exact procFrame_refl image ns r
          | ok results =>
            show ProcFrame image ns r (regOf (results.foldlM (processResult image ns) r))
            exact foldlM_regOf_pres _ _ (procFrame_refl image ns) (procFrame_trans image ns)
              results r (fun r2 a _ => processResult_frame image ns r2 a)

/-- What one loop iteration for subject `u`'s *other* subjects never touch:
`u`'s error-gauge child, timestamp child, and vulnerability-gauge children. -/
def FrameAt (u : String × String) (r r2 : InvRegistry) : Prop :=
  lookupK r2.scan_errors u = lookupK r.scan_errors u ∧
  lookupK r2.last_scan_timestamp u = lookupK r.last_scan_timestamp u ∧
  ∀ k : VKey, k.image = u.1 → k.ns = u.2 →
    lookupK r2.vulnerability_gauge k = lookupK r.vulnerability_gauge k

theorem frameAt_refl (u : String × String) (r : InvRegistry) : FrameAt u r r :=
  ⟨rfl, rfl, fun _ _ _ => rfl⟩

theorem frameAt_trans (u : String × String) (a b c : InvRegistry)
    (h1 : FrameAt u a b) (h2 : FrameAt u b c) : FrameAt u a c := by
  obtain ⟨e1, e2, e3⟩ := h1
  obtain ⟨f1, f2, f3⟩ := h2
  exact ⟨f1.trans e1, f2.trans e2, fun k h4 h5 => (f3 k h4 h5).trans (e3 k h4 h5)⟩

theorem scan_image_frame (now dur : Nat) (oc : ScanOutcome) (image ns : String)
    (r : InvRegistry) (u : String × String) (h : u ≠ (image, ns)) :
    FrameAt u r ((scan_image now dur oc image ns r).1) := by
  have herr : ∀ m : List ((String × String) × Int), ∀ v : Int,
      lookupK (setK m (image, ns) v) u = lookupK m u :=
    fun m v => lookupK_setK_other m (image, ns) u v h
  have hts : ∀ m : List ((String × String) × Nat), ∀ v : Nat,
      lookupK (setK m (image, ns) v) u = lookupK m u :=
    fun m v => lookupK_setK_other m (image, ns) u v h
  cases oc with
  | completed ec stdout =>
    by_cases hec : ec ≠ 0
    · show FrameAt u r _
      simp only [scan_image, if_pos hec]
      exact ⟨herr _ _, rfl, fun _ _ _ => rfl⟩
    · cases stdout with
      | none =>
        simp only [scan_image, if_neg hec]
        exact ⟨herr _ _, rfl, fun _ _ _ => rfl⟩
      | some d =>
        simp only [scan_image, if_neg hec]
        exact ⟨herr _ _, hts _ _, fun _ _ _ => rfl⟩
  | timeout => exact ⟨herr _ _, rfl, fun _ _ _ => rfl⟩
  | raised => exact ⟨herr _ _, rfl, fun _ _ _ => rfl⟩

theorem frameAt_of_procFrame (u subject : String × String) (r r2 : InvRegistry)
    (h : subject ≠ u) (hp : ProcFrame subject.1 subject.2 r r2) : FrameAt u r r2 := by
  obtain ⟨e1, e2, e3, e4⟩ := hp
  refine ⟨by rw [e3], by rw [e1], ?_⟩
  intro k h4 h5
  apply e4
  intro ⟨hk1, hk2⟩
  apply h
  have : u = (u.1, u.2) := rfl
  rw [this, ← h4, ← h5, hk1, hk2]

theorem scanOne_frame (now : Nat) (durOf : String × String → Nat)
    (oc : String × String → ScanOutcome) (r : InvRegistry) (subject u : String × String)
    (h : subject ≠ u) : FrameAt u r (regOf (scanOne now durOf oc r subject)) := by
  have hu : u ≠ (subject.1, subject.2) := by
    intro he
    exact h (by rw [he])
  unfold scanOne
  cases hd : scan_image now (durOf subject) (oc subject) subject.1 subject.2 r with
  | mk r1 dataq =>
    have h1 : FrameAt u r r1 := by
      have h2 := scan_image_frame now (durOf subject) (oc subject) subject.1 subject.2 r u hu
      rw [hd] at h2
      exact h2
    cases dataq with
    | none => exact h1
    | some d =>
      exact frameAt_trans u _ _ _ h1 (frameAt_of_procFrame u subject _ _ h
        (process_scan_results_frame subject.1 subject.2 d r1))

theorem foldlM_scanOne_frame (now : Nat) (durOf : String × String → Nat)
    (oc : String × String → ScanOutcome) (L : List (String × String))
    (u : String × String) (hu : u ∉ L) (r : InvRegistry) :
    FrameAt u r (regOf (L.foldlM (scanOne now durOf oc) r)) := by
  apply foldlM_regOf_pres _ _ (frameAt_refl u) (frameAt_trans u)
  intro r2 a ha
  exact scanOne_frame now durOf oc r2 a u (fun he => hu (he ▸ ha))

theorem scan_image_data_none_of_failure (now dur : Nat) (oc : ScanOutcome) (image ns : String)
    (r : InvRegistry) (h : isScanFailure oc = true) :
    (scan_image now dur oc image ns r).2 = none := by
  cases oc with
  | completed ec stdout =>
    by_cases hec : ec ≠ 0
    · simp [scan_image, if_pos hec]
    · cases stdout with
      | none => simp [scan_image, if_neg hec]
      | some d =>
        exfalso
        simp [isScanFailure, hec] at h
  | timeout => rfl
  | raised => rfl

theorem scan_image_gauge (now dur : Nat) (oc : ScanOutcome) (image ns : String)
    (r : InvRegistry) :
    ((scan_image now dur oc image ns r).1).vulnerability_gauge = r.vulnerability_gauge := by
  cases oc with
  | completed ec stdout =>
    by_cases hec : ec ≠ 0
    · simp [scan_image, if_pos hec]
    · cases stdout with
      | none => simp [scan_image, if_neg hec]
      | some d => simp [scan_image, if_neg hec]
  | timeout => rfl
  | raised => rfl

theorem scan_image_errors_self (now dur : Nat) (oc : ScanOutcome) (image ns : String)
    (r : InvRegistry) :
    lookupK ((scan_image now dur oc image ns r).1).scan_errors (image, ns)
      = some (errorsAfterSelf oc) := by
  cases oc with
  | completed ec stdout =>
    by_cases hec : ec ≠ 0
    · cases stdout with
      | none =>
        simp only [scan_image, if_pos hec, errorsAfterSelf]
        exact lookupK_setK_self _ _ _
      | some d =>
        simp only [scan_image, if_pos hec, errorsAfterSelf, if_pos hec]
        exact lookupK_setK_self _ _ _
    · cases stdout with
      | none =>
        simp only [scan_image, if_neg hec, errorsAfterSelf]
        exact lookupK_setK_self _ _ _
      | some d =>
        simp only [scan_image, if_neg hec, errorsAfterSelf]
        exact lookupK_setK_self _ _ _
  | timeout => exact lookupK_setK_self _ _ _
  | raised => exact lookupK_setK_self _ _ _

theorem scanOne_of_failure (now : Nat) (durOf : String × String → Nat)
    (oc : String × String → ScanOutcome) (r : InvRegistry) (subject : String × String)
    (h : isScanFailure (oc subject) = true) :
    scanOne now durOf oc r subject
      = .ok ((scan_image now (durOf subject) (oc subject) subject.1 subject.2 r).1) := by
  unfold scanOne
  have h2 := scan_image_data_none_of_failure now (durOf subject) (oc subject)
    subject.1 subject.2 r h
  cases hd : scan_image now (durOf subject) (oc subject) subject.1 subject.2 r with
  | mk r1 dataq =>
    rw [hd] at h2
    simp only at h2
    cases dataq with
    | none => rfl
    | some d => exact absurd h2 (by simp)

theorem scanOne_errors_self (now : Nat) (durOf : String × String → Nat)
    (oc : String × String → ScanOutcome) (r : InvRegistry) (subject : String × String)
    (rB : InvRegistry) (hok : scanOne now durOf oc r subject = .ok rB) :
    lookupK rB.scan_errors subject = some (errorsAfterSelf (oc subject)) := by
  unfold scanOne at hok
  cases hd : scan_image now (durOf subject) (oc subject) subject.1 subject.2 r with
  | mk r1 dataq =>
    rw [hd] at hok
    have hself : lookupK r1.scan_errors (subject.1, subject.2)
        = some (errorsAfterSelf (oc subject)) := by
      have h3 := scan_image_errors_self now (durOf subject) (oc subject)
        subject.1 subject.2 r
      rw [hd] at h3
      exact h3
    cases dataq with
    | none =>
      have hrB : r1 = rB := by
        injection hok
      rw [← hrB]
      exact hself
    | some d =>
      have hok2 : process_scan_results subject.1 subject.2 d r1 = .ok rB := hok
      have hpf := process_scan_results_frame subject.1 subject.2 d r1
      rw [hok2] at hpf
      have hre : regOf (Except.ok rB) = rB := rfl
      rw [hre] at hpf
      rw [hpf.2.2.1]
      exact hself

theorem scan_fold_errors_self (now : Nat) (durOf : String × String → Nat)
    (oc : String × String → ScanOutcome) (L : List (String × String)) :
    ∀ (r r' : InvRegistry) (t : String × String), L.Nodup → t ∈ L →
      L.foldlM (scanOne now durOf oc) r = .ok r' →
      lookupK r'.scan_errors t = some (errorsAfterSelf (oc t)) := by
  induction L with
  | nil =>
    intro r r' t _ hmem
    exact absurd hmem (List.not_mem_nil t)
  | cons a rest ih =>
    intro r r' t hnd hmem hok
    rw [List.foldlM_cons] at hok
    cases h1 : scanOne now durOf oc r a with
    | error e =>
      rw [h1] at hok
      exact Except.noConfusion hok
    | ok rB =>
      rw [h1] at hok
      have hok2 : rest.foldlM (scanOne now durOf oc) rB = .ok r' := hok
      rw [List.mem_cons] at hmem
      rcases hmem with he | hmem2
      · subst he
        have hself := scanOne_errors_self now durOf oc r t rB h1
        have hfr := foldlM_scanOne_frame now durOf oc rest t (List.nodup_cons.mp hnd).1 rB
        have hre : regOf (rest.foldlM (scanOne now durOf oc) rB) = r' := by
          rw [hok2]
          rfl
        rw [hre] at hfr
        rw [hfr.1]
        exact hself
      · exact ih rB r' t (List.nodup_cons.mp hnd).2 hmem2 hok2

theorem scan_fold_gauge_of_failure (now : Nat) (durOf : String × String → Nat)
    (oc : String × String → ScanOutcome) (L : List (String × String)) :
    ∀ (r r' : InvRegistry) (s : String × String), L.Nodup → s ∈ L →
      isScanFailure (oc s) = true →
      L.foldlM (scanOne now durOf oc) r = .ok r' →
      ∀ k : VKey, k.image = s.1 → k.ns = s.2 →
        lookupK r'.vulnerability_gauge k = lookupK r.vulnerability_gauge k := by
  induction L with
  | nil =>
    intro r r' s _ hmem
    exact absurd hmem (List.not_mem_nil s)
  | cons a rest ih =>
    intro r r' s hnd hmem hfail hok k hk1 hk2
    rw [List.foldlM_cons] at hok
    cases h1 : scanOne now durOf oc r a with
    | error e =>
      rw [h1] at hok
      exact Except.noConfusion hok
    | ok rB =>
      rw [h1] at hok
      have hok2 : rest.foldlM (scanOne now durOf oc) rB = .ok r' := hok
      rw [List.mem_cons] at hmem
      rcases hmem with he | hmem2
      · subst he
        have h2 := scanOne_of_failure now durOf oc r s hfail
        rw [h2] at h1
        have hrB : (scan_image now (durOf s) (oc s) s.1 s.2 r).1 = rB := by
          injection h1
        have hg : rB.vulnerability_gauge = r.vulnerability_gauge := by
          rw [← hrB, scan_image_gauge]
        have hfr := foldlM_scanOne_frame now durOf oc rest s (List.nodup_cons.mp hnd).1 rB
        have hre : regOf (rest.foldlM (scanOne now durOf oc) rB) = r' := by
          rw [hok2]
          rfl
        rw [hre] at hfr
        rw [hfr.2.2 k hk1 hk2, hg]
      · have hane : a ≠ s := fun he => ((List.nodup_cons.mp hnd).1 (he ▸ hmem2))
        have hf1 := scanOne_frame now durOf oc r a s hane
        rw [h1] at hf1
        have hre : regOf (Except.ok rB) = rB := rfl
        rw [hre] at hf1
        rw [ih rB r' s (List.nodup_cons.mp hnd).2 hmem2 hfail hok2 k hk1 hk2]
        exact hf1.2.2 k hk1 hk2

theorem errorsAfterSelf_of_failure (o : ScanOutcome) (h : isScanFailure o = true) :
    errorsAfterSelf o = 1 := by
  cases o with
  | completed ec stdout =>
    cases stdout with
    | none => rfl
    | some d =>
      have hec : ec ≠ 0 := by
        simp [isScanFailure] at h
        exact h
      simp [errorsAfterSelf, if_pos hec]
  | timeout => rfl
  | raised => rfl

theorem scan_all_images_fold (oc : String × String → ScanOutcome)
    (durOf : String × String → Nat) (now : Nat) (images : List (String × String))
    (r : InvRegistry) (hne : images ≠ []) :
    scan_all_images oc durOf now images r = images.foldlM (scanOne now durOf oc) r := by
  unfold scan_all_images
  rw [if_neg (by simpa using hne)]

theorem run_sleeps_aux (interval : Nat) (cycles : List CycleInput) :
    ∀ acc : InvRegistry × List Nat,
      (acc.2.all (fun t => decide (t = interval) || decide (t = 60))) = true →
      (((cycles.foldl (fun acc c =>
          match scan_all_images c.outcomes c.durOf c.now c.images acc.1 with
          | .ok r2 => (r2, acc.2 ++ [interval])
          | .error rp => (rp, acc.2 ++ [60])) acc).2).all
        (fun t => decide (t = interval) || decide (t = 60))) = true := by
  induction cycles with
  | nil => intro acc h; exact h
  | cons c rest ih =>
    intro acc h
    rw [List.foldl_cons]
    cases hs : scan_all_images c.outcomes c.durOf c.now c.images acc.1 with
    | ok r2 =>
      apply ih
      rw [List.all_append, h]
      simp
    | error rp =>
      apply ih
      rw [List.all_append, h]
      simp

theorem run_failed_cycle_sleeps_60 (interval : Nat) (c : CycleInput)
    (r rp : InvRegistry)
    (h : scan_all_images c.outcomes c.durOf c.now c.images r = .error rp) :
    (run interval [c] r).2 = [60] := by
  unfold run
  rw [List.foldl_cons, h, List.foldl_nil]
  rfl

end PromExporter

namespace FileExporter

theorem countP_filter_self {α : Type} (p : α → Bool) (l : List α) :
    (l.filter p).countP p = l.countP p := by
  induction l with
  | nil => rfl
  | cons a t ih =>
    cases h : p a with
    | true => rw [List.filter_cons_of_pos h, List.countP_cons_of_pos _ _ h,
        List.countP_cons_of_pos _ _ h, ih]
    | false => rw [List.filter_cons_of_neg (by simp [h]), List.countP_cons_of_neg _ _ (by simp [h]), ih]

theorem flatten_map_filter {α β : Type} (g : α → List β) (p : α → Bool)
    (h : ∀ a, p a = false → g a = []) (l : List α) :
    (((l.filter p).map g).flatten) = ((l.map g).flatten) := by
  induction l with
  | nil => rfl
  | cons a t ih =>
    cases hp : p a with
    | true => rw [List.filter_cons_of_pos hp, List.map_cons, List.flatten_cons,
        List.map_cons, List.flatten_cons, ih]
    | false =>
      rw [List.filter_cons_of_neg (by simp [hp]), List.map_cons, List.flatten_cons,
        h a hp, List.nil_append, ih]

theorem updateOps_files (ts : Json → Option Int) (fs : List (Option Json)) :
    updateOps ts (.files fs)
      = [.clearCounts, .clearInfo] ++
        (if fs.isEmpty then [RegOp.setImagesScanned 0]
         else ((fs.map (fun f =>
                 match parse_trivy_report f with
                 | none => []
                 | some rep => reportOps ts rep)).flatten)
           ++ [RegOp.setImagesScanned (fs.countP (fun f => (parse_trivy_report f).isSome))]) :=
  rfl

theorem updateOps_filter_parsable (ts : Json → Option Int) (fs : List (Option Json)) :
    updateOps ts (.files fs)
      = updateOps ts (.files (fs.filter (fun f => (parse_trivy_report f).isSome))) := by
  rw [updateOps_files, updateOps_files]
  congr 1
  by_cases hfs : fs.isEmpty = true
  · have : fs = [] := by
      cases fs with
      | nil => rfl
      | cons a t => simp at hfs
    rw [this]
    rfl
  · rw [if_neg hfs]
    by_cases hflt : (fs.filter (fun f => (parse_trivy_report f).isSome)).isEmpty = true
    · have hall : ∀ f ∈ fs, (parse_trivy_report f).isSome = false := by
        have := List.isEmpty_iff.mp hflt
        intro f hf
        by_contra hc
        have hmem : f ∈ fs.filter (fun f => (parse_trivy_report f).isSome) :=
          List.mem_filter.mpr ⟨hf, by
            cases h2 : (parse_trivy_report f).isSome with
            | true => rfl
            | false => exact absurd h2 hc⟩
        rw [this] at hmem
        exact absurd hmem (List.not_mem_nil f)
      rw [if_pos hflt]
      have hflat : ((fs.map (fun f =>
          match parse_trivy_report f with
          | none => []
          | some rep => reportOps ts rep)).flatten) = [] := by
        rw [List.flatten_eq_nil_iff]
        intro l hl
        rcases List.mem_map.mp hl with ⟨f, hf, hfl⟩
        have hnone : parse_trivy_report f = none := by
          have := hall f hf
          cases hp : parse_trivy_report f with
          | none => rfl
          | some rep => rw [hp] at this; simp at this
        rw [← hfl, hnone]
      have hcount : fs.countP (fun f => (parse_trivy_report f).isSome) = 0 := by
        rw [List.countP_eq_zero]
        intro f hf
        simpa using hall f hf
      rw [hflat, hcount]
      rfl
    · rw [if_neg hflt]
      have h1 : (((fs.filter (fun f => (parse_trivy_report f).isSome)).map (fun f =>
          match parse_trivy_report f with
          | none => []
          | some rep => reportOps ts rep)).flatten)
          = ((fs.map (fun f =>
          match parse_trivy_report f with
          | none => []
          | some rep => reportOps ts rep)).flatten) := by
        apply flatten_map_filter
        intro f hf
        cases hp : parse_trivy_report f with
        | none => rfl
        | some rep => rw [hp] at hf; simp at hf
      have h2 : (fs.filter (fun f => (parse_trivy_report f).isSome)).countP
          (fun f => (parse_trivy_report f).isSome)
          = fs.countP (fun f => (parse_trivy_report f).isSome) :=
        countP_filter_self _ fs
      rw [h1, h2]

end FileExporter

/-- A trivially failing timestamp parser (no report in these inputs carries a
`CreatedAt` value). -/
def tsNone : Json → Option Int := fun _ => none

/-- A well-formed finding object, as trivy emits it. -/
def exVuln : Json :=
  .jobj [("VulnerabilityID", .jstr "CVE-2024-0001"), ("PkgName", .jstr "libfoo"),
         ("InstalledVersion", .jstr "1.0"), ("FixedVersion", .jstr "1.1"),
         ("Severity", .jstr "HIGH"), ("Title", .jstr "overflow")]

/-- A well-formed report document for image `app:1.0` with one HIGH finding. -/
def exDoc : Json :=
  .jobj [("ArtifactName", .jstr "app:1.0"),
         ("Results", .jarr [.jobj [("Vulnerabilities", .jarr [exVuln])]])]

/-- The registry exposed after one completed cycle over `exDoc`. -/
def exReg1 : FileExporter.Registry :=
  FileExporter.update_metrics tsNone (.files [some exDoc]) FileExporter.initRegistry

/-- C1 counterexample: during the next cycle over the same input, the
registry state right after `trivy_image_vulnerabilities.clear()` is
observable by a concurrent scrape; its count family is empty — neither the
complete old label set nor the complete new one — while the stale detail
family of the previous cycle is still exposed next to it. -/
theorem claim_C1_counterexample :
    ((FileExporter.observableStates tsNone (.files [some exDoc]) exReg1)[1]?).map
        FileExporter.Registry.counts = some []
    ∧ ((FileExporter.observableStates tsNone (.files [some exDoc]) exReg1)[1]?).map
        FileExporter.Registry.info = some exReg1.info
    ∧ exReg1.counts ≠ []
    ∧ exReg1.info ≠ []
    ∧ (FileExporter.update_metrics tsNone (.files [some exDoc]) exReg1).counts ≠ [] :=
  ⟨rfl, rfl, by decide, by decide, by decide⟩

/-- C1 (amended): publication is not atomic.  The cycle clears the count and
detail families in place and repopulates them operation by operation with no
lock against the HTTP thread, so a `GET /metrics` served concurrently may
observe intermediate states; a read before the cycle's first registry
operation observes exactly the previous snapshot, and a read after its last
operation observes exactly the fully built new snapshot. -/
theorem claim_C1_publish_boundaries (ts : Json → Option Int) (dir : FileExporter.DirState)
    (r : FileExporter.Registry) :
    (FileExporter.observableStates ts dir r).head? = some r
    ∧ (FileExporter.observableStates ts dir r).getLast?
        = some (FileExporter.update_metrics ts dir r) := by
  constructor
  · exact scanl_head _ _ _
  · rw [FileExporter.observableStates, scanl_getLast]
    rfl

/-- C2: the readiness route returns 503 before the first cycle completes;
after the first cycle's publish step (whatever its directory outcome,
including zero subjects) it returns 200; and the latch, once set, survives
any further cycles. -/
theorem claim_C2_readiness_latch :
    FileExporter.do_GET "/-/ready" FileExporter.initState = 503
    ∧ (∀ (ts : Json → Option Int) (interval : Nat) (d : FileExporter.DirState)
        (dirs : List FileExporter.DirState),
        FileExporter.do_GET "/-/ready"
          (FileExporter.mainRun ts interval (d :: dirs) FileExporter.initState).1 = 200)
    ∧ (∀ (ts : Json → Option Int) (interval : Nat) (dirs : List FileExporter.DirState)
        (r : FileExporter.Registry),
        ((FileExporter.mainRun ts interval dirs ⟨true, r⟩).1).ready = true) := by
  refine ⟨rfl, ?_, ?_⟩
  · intro ts interval d dirs
    have h := FileExporter.mainRun_ready_of_cons ts interval d dirs FileExporter.initState
    show (if ((FileExporter.mainRun ts interval (d :: dirs) FileExporter.initState).1).ready
        then (200 : Nat) else 503) = 200
    rw [h]
    rfl
  · intro ts interval dirs r
    exact FileExporter.mainRun_latch ts interval dirs r

/-- C7 counterexample (dashboard variant): with a previously populated
registry, a cycle that finds the reports directory absent returns before
clearing or setting anything, leaving the prior cycle's count family and
`trivy_images_scanned = 1` exposed instead of an empty snapshot with
`subjects_processed = 0`; this variant also exposes no readiness route at
all. -/
theorem claim_C7_counterexample :
    ∃ rp : DashboardExporter.Registry,
      DashboardExporter.update_metrics tsNone (.files [some exDoc]) ⟨[], [], [], 0⟩ = .ok rp
      ∧ DashboardExporter.update_metrics tsNone .absent rp = .ok rp
      ∧ rp.images_scanned = 1
      ∧ rp.counts ≠ [] := by
  refine ⟨_, rfl, rfl, rfl, by decide⟩

/-- C7 (amended, main exporter): on an absent directory, a non-directory
path, a raising listing, or an empty listing, `update_metrics` still
completes with empty count and detail families and `trivy_images_scanned`
set to 0, and the cycle step that follows publishes and sets readiness. -/
theorem claim_C7_empty_dir_zero_snapshot (ts : Json → Option Int) (r : FileExporter.Registry) :
    ((FileExporter.update_metrics ts .absent r).counts = []
      ∧ (FileExporter.update_metrics ts .absent r).info = []
      ∧ (FileExporter.update_metrics ts .absent r).images_scanned = 0)
    ∧ ((FileExporter.update_metrics ts .notDir r).counts = []
      ∧ (FileExporter.update_metrics ts .notDir r).info = []
      ∧ (FileExporter.update_metrics ts .notDir r).images_scanned = 0)
    ∧ ((FileExporter.update_metrics ts .permissionDenied r).counts = []
      ∧ (FileExporter.update_metrics ts .permissionDenied r).info = []
      ∧ (FileExporter.update_metrics ts .permissionDenied r).images_scanned = 0)
    ∧ ((FileExporter.update_metrics ts (.files []) r).counts = []
      ∧ (FileExporter.update_metrics ts (.files []) r).info = []
      ∧ (FileExporter.update_metrics ts (.files []) r).images_scanned = 0)
    ∧ (∀ (dir : FileExporter.DirState) (s : FileExporter.MainState),
        (FileExporter.cycleStep ts dir s).ready = true) :=
  ⟨⟨rfl, rfl, rfl⟩, ⟨rfl, rfl, rfl⟩, ⟨rfl, rfl, rfl⟩, ⟨rfl, rfl, rfl⟩, fun _ _ => rfl⟩

/-- C8 counterexample: a structurally invalid report file is silently
skipped — the cycle's entire exposed state is identical to a cycle in which
the file did not exist, and nothing records the subject as errored (the
file-backed exporter has no error-tracking metric family at all, as the
`Registry` of this embedding shows). -/
theorem claim_C8_counterexample :
    FileExporter.update_metrics tsNone (.files [none, some exDoc]) FileExporter.initRegistry
      = FileExporter.update_metrics tsNone (.files [some exDoc]) FileExporter.initRegistry
    ∧ (FileExporter.update_metrics tsNone (.files [none, some exDoc])
        FileExporter.initRegistry).images_scanned = 1 :=
  ⟨rfl, rfl⟩

/-- C8 (amended): an undecodable report file yields a `None` parse, and the
cycle's registry effect is exactly as if every unparsable file were absent
from the listing: the subject is excluded from `trivy_images_scanned` and
from every family, only logged — there is no error-tracking metric in this
exporter to record it. -/
theorem claim_C8_invalid_report_skipped :
    FileExporter.parse_trivy_report none = none
    ∧ ∀ (ts : Json → Option Int) (fs : List (Option Json)) (r : FileExporter.Registry),
        FileExporter.update_metrics ts (.files fs) r
          = FileExporter.update_metrics ts
              (.files (fs.filter (fun f => (FileExporter.parse_trivy_report f).isSome))) r := by
  refine ⟨rfl, ?_⟩
  intro ts fs r
  rw [FileExporter.update_metrics, FileExporter.update_metrics,
    FileExporter.updateOps_filter_parsable]

/-- C10: a scan whose subprocess exits zero and whose stdout decodes as JSON
sets the subject's error gauge back to 0 and its last-scan timestamp to the
current time — in particular an error recorded for the subject in an earlier
cycle is cleared by the later successful scan. -/
theorem claim_C10_success_clears_error (now dur : Nat) (image ns : String) (d : Json)
    (r : PromExporter.InvRegistry) :
    lookupK ((PromExporter.scan_image now dur (.completed 0 (some d)) image ns r).1).scan_errors
        (image, ns) = some 0
    ∧ lookupK ((PromExporter.scan_image now dur (.completed 0 (some d)) image ns r).1).last_scan_timestamp
        (image, ns) = some now
    ∧ (PromExporter.scan_image now dur (.completed 0 (some d)) image ns r).2 = some d := by
  refine ⟨?_, ?_, rfl⟩
  · exact lookupK_setK_self _ _ _
  · show lookupK (setK r.last_scan_timestamp (image, ns) now) (image, ns) = some now
    exact lookupK_setK_self _ _ _

/-- C3 counterexample: two report files that both carry
`ArtifactName = "app:1.0"` and one HIGH `libfoo` finding each parse
successfully (N = 2 findings in total), yet the published count family sums
to 1: the second report's `set` overwrites the first's entry for the shared
`(image, severity, package)` label tuple. -/
theorem claim_C3_counterexample :
    (FileExporter.parsedReports [some exDoc, some exDoc]).length = 2
    ∧ ((FileExporter.parsedReports [some exDoc, some exDoc]).map
        (fun rp => rp.vulnerabilities.length)).sum = 2
    ∧ sumVals ((FileExporter.update_metrics tsNone (.files [some exDoc, some exDoc])
        FileExporter.initRegistry).counts) = 1 :=
  ⟨rfl, rfl, rfl⟩

/-- C3 (amended): for reports whose subject identities are pairwise
distinct, the published count family, grouped by (image, severity, package),
sums to exactly the total number of findings; reports sharing a subject
identity overwrite one another's overlapping entries instead. -/
theorem claim_C3_count_sum (ts : Json → Option Int) (reps : List FileExporter.SReport)
    (r : FileExporter.Registry)
    (hnd : (reps.map FileExporter.SReport.image).Nodup) :
    sumVals ((FileExporter.update_metrics ts
        (.files (reps.map (fun p => some p.doc))) r).counts)
      = (reps.map (fun p => (p.findings : Int))).sum := by
  rw [FileExporter.update_metrics_counts_files]
  cases reps with
  | nil => simp [sumVals]
  | cons p0 rest =>
    rw [if_neg (by simp), FileExporter.parsedReports_sreports]
    have hnd2 : (((p0 :: rest).map FileExporter.SReport.parsed).map
        (fun rp => pyStr rp.image)).Nodup := by
      rw [List.map_map]
      have hcomp : ((fun rp : FileExporter.Report => pyStr rp.image)
          ∘ FileExporter.SReport.parsed) = FileExporter.SReport.image := by
        funext p
        rfl
      rw [hcomp]
      exact hnd
    have hdisj : ∀ a ∈ keysOf ([] : List (FileExporter.CountKey × Int)),
        a.image ∉ ((p0 :: rest).map FileExporter.SReport.parsed).map
          (fun rp => pyStr rp.image) := by
      intro a ha
      simp [keysOf] at ha
    rw [FileExporter.countsFold_sum ((p0 :: rest).map FileExporter.SReport.parsed) []
      hnd2 hdisj]
    have hlen : (((p0 :: rest).map FileExporter.SReport.parsed).map
        (fun rp => (rp.vulnerabilities.length : Int)))
        = (p0 :: rest).map (fun p => (p.findings : Int)) := by
      rw [List.map_map]
      apply List.map_congr_left
      intro p _
      show ((FileExporter.SReport.parsed p).vulnerabilities.length : Int) = (p.findings : Int)
      rw [FileExporter.sreport_parsed_length]
    rw [hlen]
    simp [sumVals]

/-- Two structured reports with distinct images, three findings in total. -/
def exSRep1 : FileExporter.SReport :=
  ⟨"app:1.0", [[⟨"CVE-1", "libfoo", "1.0", "1.1", "HIGH", "t"⟩]]⟩

def exSRep2 : FileExporter.SReport :=
  ⟨"db:2.0", [[⟨"CVE-2", "libbar", "2.0", "", "LOW", "u"⟩,
               ⟨"CVE-3", "libbaz", "3.0", "3.1", "MEDIUM", "v"⟩]]⟩

/-- C3 witness: the amended sum theorem evaluated on two distinct-image
reports with three findings in total. -/
theorem claim_C3_count_sum_witness :
    (([exSRep1, exSRep2].map FileExporter.SReport.image).Nodup)
    ∧ sumVals ((FileExporter.update_metrics tsNone
        (.files ([exSRep1, exSRep2].map (fun p => some p.doc)))
        FileExporter.initRegistry).counts)
      = ([exSRep1, exSRep2].map (fun p => (p.findings : Int))).sum :=
  ⟨by decide,
   claim_C3_count_sum tsNone [exSRep1, exSRep2] FileExporter.initRegistry (by decide)⟩

/-- C5 counterexample: a timed-out scan attempt records the subject as
errored but leaves the duration histogram without any observation — the
`observe` call sits after `subprocess.run` and `TimeoutExpired` skips it. -/
theorem claim_C5_counterexample :
    ((PromExporter.scan_image 5 7 .timeout "nginx:latest" "default"
        PromExporter.initInvRegistry).1).scan_duration = []
    ∧ lookupK ((PromExporter.scan_image 5 7 .timeout "nginx:latest" "default"
        PromExporter.initInvRegistry).1).scan_errors ("nginx:latest", "default") = some 1 :=
  ⟨rfl, rfl⟩

/-- C5 (amended): the scan duration is observed exactly when the subprocess
invocation returns — on success, non-zero exit, and undecodable stdout alike —
and is not observed when the invocation times out or raises. -/
theorem claim_C5_duration (now dur : Nat) (ec : Int) (out : Option Json)
    (image ns : String) (r : PromExporter.InvRegistry) :
    lookupK ((PromExporter.scan_image now dur (.completed ec out) image ns r).1).scan_duration
        image = some (((lookupK r.scan_duration image).getD []) ++ [dur])
    ∧ ((PromExporter.scan_image now dur .timeout image ns r).1).scan_duration
        = r.scan_duration
    ∧ ((PromExporter.scan_image now dur .raised image ns r).1).scan_duration
        = r.scan_duration := by
  refine ⟨?_, rfl, rfl⟩
  have hobs : lookupK (PromExporter.observeDuration r.scan_duration image dur) image
      = some (((lookupK r.scan_duration image).getD []) ++ [dur]) := by
    rw [PromExporter.observeDuration]
    exact lookupK_setK_self _ _ _
  by_cases hec : ec ≠ 0
  · simp only [PromExporter.scan_image, if_pos hec]
    exact hobs
  · cases out with
    | none =>
      simp only [PromExporter.scan_image, if_neg hec]
      exact hobs
    | some d =>
      simp only [PromExporter.scan_image, if_neg hec]
      exact hobs

/-- A cycle whose only subject scans successfully but returns a decodable
document with `Vulnerabilities: null`, which raises inside
`process_scan_results` and aborts the cycle. -/
def badCycle : PromExporter.CycleInput :=
  ⟨[("app", "default")],
   fun _ => .completed 0 (some (.jobj [("Results",
     .jarr [.jobj [("Vulnerabilities", Json.jnull)]])])),
   fun _ => 1, 0⟩

/-- C6 counterexample: with a configured interval of 3600 seconds, the
inventory-backed scheduler sleeps only 60 seconds after the failed cycle —
the failure shortens the sleep. -/
theorem claim_C6_counterexample :
    (PromExporter.run 3600 [badCycle] PromExporter.initInvRegistry).2 = [60]
    ∧ (60 : Nat) ≠ 3600 :=
  ⟨rfl, by decide⟩

/-- C6 (amended): the file-backed exporter sleeps the full configured
interval after every cycle, failed or not; the inventory-backed exporter
sleeps either the interval or a fixed 60 seconds, and after a cycle aborted
by an exception it sleeps exactly 60 seconds regardless of the configured
interval. -/
theorem claim_C6_sleep :
    (∀ (ts : Json → Option Int) (interval : Nat) (dirs : List FileExporter.DirState)
      (s : FileExporter.MainState),
      (FileExporter.mainRun ts interval dirs s).2 = List.replicate dirs.length interval)
    ∧ (∀ (interval : Nat) (cycles : List PromExporter.CycleInput)
        (r : PromExporter.InvRegistry),
        ((PromExporter.run interval cycles r).2.all
          (fun t => decide (t = interval) || decide (t = 60))) = true)
    ∧ (∀ (interval : Nat) (c : PromExporter.CycleInput) (r rp : PromExporter.InvRegistry),
        PromExporter.scan_all_images c.outcomes c.durOf c.now c.images r = .error rp →
        (PromExporter.run interval [c] r).2 = [60]) := by
  refine ⟨?_, ?_, ?_⟩
  · intro ts interval dirs s
    exact FileExporter.mainRun_sleeps ts interval dirs s
  · intro interval cycles r
    exact PromExporter.run_sleeps_aux interval cycles (r, []) rfl
  · intro interval c r rp h
    exact PromExporter.run_failed_cycle_sleeps_60 interval c r rp h

/-- C6 witness: the failed-cycle branch of the amended theorem evaluated on
a concrete aborting cycle with interval 77. -/
theorem claim_C6_sleep_witness :
    (PromExporter.run 77 [badCycle] PromExporter.initInvRegistry).2 = [60] :=
  claim_C6_sleep.2.2 77 badCycle PromExporter.initInvRegistry _ rfl

/-- A decodable scan result whose only vulnerability object is entirely
empty: every expected field is missing. -/
def naVulnDoc : Json :=
  .jobj [("Results", .jarr [.jobj [("Vulnerabilities", .jarr [.jobj []])]])]

/-- C9 counterexample: in the inventory-backed processor, the missing string
fields of a finding are published with label value `N/A`, not the empty
string the claim asserts. -/
theorem claim_C9_counterexample :
    PromExporter.process_scan_results "app:1.0" "default" naVulnDoc
        PromExporter.initInvRegistry
      = .ok ⟨[(⟨"app:1.0", "UNKNOWN", "default", "N/A", "N/A", "N/A", "N/A"⟩, 1)], [], [], []⟩
    ∧ ("N/A" : String) ≠ "" :=
  ⟨rfl, by decide⟩

/-- C9 (amended): undecodable input yields an error result rather than an
exception; a finding with every field missing is still parsed, with
`severity` defaulting to `UNKNOWN`; the string fields default to the empty
string in the file-backed parser and to `N/A` in the inventory-backed
processor (and the subject identity defaults to `unknown`, not empty). -/
theorem claim_C9_parse_defaults :
    FileExporter.parse_trivy_report none = none
    ∧ (∀ img : String,
        FileExporter.parse_trivy_report (some (.jobj [("ArtifactName", .jstr img),
            ("Results", .jarr [.jobj [("Vulnerabilities", .jarr [.jobj []])]])]))
          = some ⟨.jstr img, .jstr "",
              [⟨.jstr img, .jstr "", .jstr "", .jstr "", .jstr "", .jstr "UNKNOWN", .jstr ""⟩]⟩)
    ∧ FileExporter.parse_trivy_report (some (.jobj []))
        = some ⟨.jstr "unknown", .jstr "", []⟩
    ∧ (∀ (img ns : String) (r : PromExporter.InvRegistry),
        PromExporter.process_scan_results img ns naVulnDoc r
          = .ok { r with vulnerability_gauge := (setK r.vulnerability_gauge
              ⟨img, "UNKNOWN", ns, "N/A", "N/A", "N/A", "N/A"⟩ 1) }) :=
  ⟨rfl, fun _ => rfl, rfl, fun _ _ _ => rfl⟩

/-- C4: a subject whose scan fails (non-zero exit, timeout, undecodable
stdout, or a raising invocation) has its error gauge set to 1 and no
vulnerability-gauge children added for it during the cycle; every subject of
the cycle still ends with the error-gauge value its own outcome determines;
and the failing subject's loop iteration always returns normally, so its
failure never aborts the cycle. -/
theorem claim_C4_failure_isolation (oc : String × String → PromExporter.ScanOutcome)
    (durOf : String × String → Nat) (now : Nat) (images : List (String × String))
    (s : String × String) (r r' : PromExporter.InvRegistry)
    (hnd : images.Nodup) (hs : s ∈ images)
    (hfail : PromExporter.isScanFailure (oc s) = true)
    (hok : PromExporter.scan_all_images oc durOf now images r = .ok r') :
    lookupK r'.scan_errors s = some 1
    ∧ (∀ k : PromExporter.VKey, k.image = s.1 → k.ns = s.2 →
        lookupK r'.vulnerability_gauge k = lookupK r.vulnerability_gauge k)
    ∧ (∀ t ∈ images, lookupK r'.scan_errors t
        = some (PromExporter.errorsAfterSelf (oc t)))
    ∧ (∀ r2 : PromExporter.InvRegistry,
        PromExporter.scanOne now durOf oc r2 s
          = .ok ((PromExporter.scan_image now (durOf s) (oc s) s.1 s.2 r2).1)) := by
  have hne : images ≠ [] := by
    intro he
    rw [he] at hs
    exact absurd hs (List.not_mem_nil s)
  rw [PromExporter.scan_all_images_fold oc durOf now images r hne] at hok
  refine ⟨?_, ?_, ?_, ?_⟩
  · have h := PromExporter.scan_fold_errors_self now durOf oc images r r' s hnd hs hok
    rw [PromExporter.errorsAfterSelf_of_failure (oc s) hfail] at h
    exact h
  · exact PromExporter.scan_fold_gauge_of_failure now durOf oc images r r' s hnd hs hfail hok
  · intro t ht
    exact PromExporter.scan_fold_errors_self now durOf oc images r r' t hnd ht hok
  · intro r2
    exact PromExporter.scanOne_of_failure now durOf oc r2 s hfail

/-- A decodable successful scan result with one HIGH finding. -/
def exScanDoc : Json :=
  .jobj [("Results", .jarr [.jobj [("Vulnerabilities", .jarr [.jobj
    [("Severity", .jstr "HIGH"), ("VulnerabilityID", .jstr "CVE-9"),
     ("PkgName", .jstr "openssl"), ("InstalledVersion", .jstr "1.1"),
     ("FixedVersion", .jstr "1.2")]])]])]

def exImages : List (String × String) := [("alpha", "x"), ("beta", "y")]

def exOc : String × String → PromExporter.ScanOutcome :=
  fun p => if p.1 = "alpha" then .timeout else .completed 0 (some exScanDoc)

def exDur : String × String → Nat := fun _ => 3

/-- C4 witness: a two-subject cycle in which the first subject times out and
the second succeeds; the cycle completes, the failed subject's error gauge is
1 and the successful subject's is 0. -/
theorem claim_C4_failure_isolation_witness :
    ∃ r' : PromExporter.InvRegistry,
      PromExporter.scan_all_images exOc exDur 9 exImages PromExporter.initInvRegistry = .ok r'
      ∧ lookupK r'.scan_errors ("alpha", "x") = some 1
      ∧ lookupK r'.scan_errors ("beta", "y") = some 0 := by
  refine ⟨_, rfl, ?_, ?_⟩
  · exact (claim_C4_failure_isolation exOc exDur 9 exImages ("alpha", "x")
      PromExporter.initInvRegistry _ (by decide) (by decide) (by decide) rfl).1
  · exact (claim_C4_failure_isolation exOc exDur 9 exImages ("alpha", "x")
      PromExporter.initInvRegistry _ (by decide) (by decide) (by decide) rfl).2.2.1
      ("beta", "y") (by decide)
